import Mathlib

/-!
Verification of the jenkins-chatbot client runtime against its specification.

This file gives a shallow embedding, in Lean 4, of the parts of the
repository's Python code that the checked properties speak about:

* `app/services/mcp_universal_client.py` — parameter validation and type
  coercion, capability discovery, server selection;
* `app/services/performance_manager.py` — the TTL+LRU cache and the
  bounded connection pool;
* `app/services/tool_registry.py` — scored server selection, fallback
  execution, per-(server, tool) performance tracking;
* `app/services/recovery_manager.py` — the per-(tool, failure-type)
  circuit breaker.

Python dictionaries are embedded as insertion-ordered association lists
(`List (String × β)`), matching the iteration order the code relies on.
`time.time()` values and float-valued metrics are embedded as rationals
(`ℚ`); network and clock effects are passed in explicitly as function
arguments, so every definition is executable and deterministic.
-/

/-- A scalar Python value, as carried in MCP tool parameters and cache
entries.  Python `None` is a first-class value (`pyNone`): the code under
verification uses `is not None` checks, so `None` must be representable
rather than mapped to `Option.none`.  Container values (lists/dicts) are
not needed by any checked property and are omitted. -/
inductive PyVal where
  | pyNone
  | pyBool (b : Bool)
  | pyInt (n : Int)
  | pyFloat (q : ℚ)
  | pyStr (s : String)
deriving DecidableEq, Repr

/-- Python `str.isdigit()` restricted to ASCII digits: true iff the string is
nonempty and all characters are digits. -/
def pyIsDigit (s : String) : Bool :=
  s.length != 0 && s.toList.all Char.isDigit

/-- `int(s)` for a digit string `s` (the only use site guards with
`pyIsDigit`). -/
def digitsToNat (s : String) : Nat :=
  s.toList.foldl (fun a c => a * 10 + (c.toNat - 48)) 0

/-- Python `str(value)` for the scalar values of `PyVal`.  The float case is
a placeholder rendering (Python's float repr is not modelled); no checked
property depends on it. -/
def pyToStr : PyVal → String
  | .pyNone => "None"
  | .pyBool true => "True"
  | .pyBool false => "False"
  | .pyInt n => toString n
  | .pyFloat q => toString q
  | .pyStr s => s

/-- Digits with an optional fractional part, as a rational.  `none` when
either part holds a non-digit or both parts are empty. -/
def parseDecimalFrac (intPart fracPart : String) : Option ℚ :=
  if intPart.length = 0 && fracPart.length = 0 then none
  else if intPart.toList.all Char.isDigit && fracPart.toList.all Char.isDigit then
    some ((digitsToNat intPart : ℚ) + (digitsToNat fracPart : ℚ) / (10 ^ fracPart.length))
  else none

/-- Python `float(s)` on plain decimal literals: optional surrounding
whitespace, optional sign, digits with at most one decimal point.
(Exponent forms and the `inf`/`nan` words are not modelled; no checked
property exercises them.) -/
def pyParseFloat (s : String) : Option ℚ :=
  let t := s.trim
  let sign : ℚ := if t.startsWith "-" then -1 else 1
  let body := if t.startsWith "-" || t.startsWith "+" then t.drop 1 else t
  match body.splitOn "." with
  | [ip] => (parseDecimalFrac ip "").map (fun q => sign * q)
  | [ip, fp] => (parseDecimalFrac ip fp).map (fun q => sign * q)
  | _ => none

/-- Python `float(value)`: `none` models the `TypeError`/`ValueError` raised
for values that have no float conversion. -/
def pyFloatOf : PyVal → Option ℚ
  | .pyFloat q => some q
  | .pyInt n => some (n : ℚ)
  | .pyBool b => some (if b then 1 else 0)
  | .pyStr s => pyParseFloat s
  | .pyNone => none

/-- Embedding of `UniversalMCPClient._convert_parameter_type`
(`mcp_universal_client.py:241-270`).  `Except.error msg` models
`raise ValueError(msg)`.  Mirrored Python subtleties: `bool` is a subclass
of `int`, so a boolean passes the `integer` branch unchanged; and the
`boolean` branch has no final `else`, so a value that is neither a `bool`
nor a `str` falls off the end of the function and yields Python `None`. -/
def convert_parameter_type (value : PyVal) (expectedType : String) : Except String PyVal :=
  if expectedType = "integer" then
    match value with
    | .pyInt _ => .ok value
    | .pyBool _ => .ok value
    | .pyStr s =>
        if pyIsDigit s then .ok (.pyInt (digitsToNat s))
        else .error ("Cannot convert '" ++ pyToStr value ++ "' to integer")
    | _ => .error ("Cannot convert '" ++ pyToStr value ++ "' to integer")
  else if expectedType = "boolean" then
    match value with
    | .pyBool _ => .ok value
    | .pyStr s =>
        let l := s.toLower
        if l = "true" ∨ l = "yes" ∨ l = "1" then .ok (.pyBool true)
        else if l = "false" ∨ l = "no" ∨ l = "0" then .ok (.pyBool false)
        else .error ("Cannot convert '" ++ pyToStr value ++ "' to boolean")
    | _ => .ok .pyNone
  else if expectedType = "number" then
    match pyFloatOf value with
    | some q => .ok (.pyFloat q)
    | none => .error ("Cannot convert '" ++ pyToStr value ++ "' to number")
  else .ok (.pyStr (pyToStr value))

/-- The `"type"` entry of one parameter's JSON-schema fragment, when
present (`param_def.get("type", "string")` supplies the default at the use
site).  The fragment's other entries (description, enum) play no role in
validation and are omitted. -/
structure ParamDef where
  ptype : Option String
deriving DecidableEq, Repr

/-- Embedding of `StandardizedSchema` (`mcp_universal_client.py:43-51`).
`examples` is never read by the code under verification and is omitted. -/
structure StandardizedSchema where
  name : String
  description : String
  parameters : List (String × ParamDef)
  required : List String
  returns : Option String := none
deriving DecidableEq, Repr

/-- First binding of key `k` in the association list (Python dict lookup). -/
def lookupKey {α : Type} : List (String × α) → String → Option α
  | [], _ => none
  | p :: rest, k => if p.fst == k then some p.snd else lookupKey rest k

/-- Python `k in d` for the embedded dictionary. -/
def hasKey {α : Type} (l : List (String × α)) (k : String) : Bool :=
  (lookupKey l k).isSome

/-- Embedding of `ValidationResult` (`mcp_universal_client.py:74-80`). -/
structure ValidationResult where
  valid : Bool
  errors : List String
  convertedParams : List (String × PyVal)
deriving DecidableEq, Repr

/-- Embedding of `UniversalMCPClient.validate_parameters`
(`mcp_universal_client.py:199-239`).  `schema?` is the result of the
`_find_tool_schema` lookup, passed in by the caller.  Required names are
checked first; then every supplied parameter is converted when its name is
declared, or passed through unchanged (with only a log warning) when it is
not. -/
def validate_parameters (toolName : String) (schema? : Option StandardizedSchema)
    (params : List (String × PyVal)) : ValidationResult :=
  match schema? with
  | none => ⟨false, ["Tool '" ++ toolName ++ "' not found"], []⟩
  | some schema =>
      let requiredErrors := (schema.required.filter (fun r => ¬ hasKey params r)).map
        (fun r => "Required parameter '" ++ r ++ "' is missing")
      let step := fun (acc : List String × List (String × PyVal)) (p : String × PyVal) =>
        match lookupKey schema.parameters p.fst with
        | some pd =>
            match convert_parameter_type p.snd (pd.ptype.getD "string") with
            | .ok v => (acc.fst, acc.snd ++ [(p.fst, v)])
            | .error e => (acc.fst ++ ["Parameter '" ++ p.fst ++ "': " ++ e], acc.snd)
        | none => (acc.fst, acc.snd ++ [(p.fst, p.snd)])
      let r := params.foldl step (requiredErrors, [])
      ⟨r.fst.isEmpty, r.fst, r.snd⟩

/-- Embedding of `NormalizedResponse` (`mcp_universal_client.py:53-62`).
`raw_response` (the transport's raw object) is not modelled. -/
structure NormalizedResponse where
  success : Bool
  data : PyVal := .pyNone
  error : Option String := none
  toolName : String := ""
  executionTimeMs : Int := 0
  serverName : String := ""
deriving DecidableEq, Repr

/-- Embedding of `MCPServerConfig` (`mcp_universal_client.py:30-41`).  Only
the fields the verified code paths read are kept; `transport` is fixed to
the HTTP reference transport (the only one the code implements), and
headers/auth metadata are never read by the verified paths. -/
structure MCPServerConfig where
  name : String
  url : String
  priority : Int := 1
  timeout : ℚ := 30
  retryCount : ℕ := 3
  enabled : Bool := true
deriving DecidableEq, Repr

/-- Embedding of `ServerCapabilities` (`mcp_universal_client.py:64-72`).
The `metadata`/`features`/`transport_types` fields play no role in any
checked property and are omitted; `version` stays at its `"unknown"`
default because the optional `server_info` probe is not modelled. -/
structure ServerCapabilities where
  serverName : String
  version : String := "unknown"
  tools : List StandardizedSchema := []
deriving DecidableEq, Repr

/-- Python dict assignment `d[k] = v`: updates the existing binding in
place (keeping its position) or appends a new one. -/
def setKey {α : Type} : List (String × α) → String → α → List (String × α)
  | [], k, v => [(k, v)]
  | p :: rest, k, v => if p.fst == k then (k, v) :: rest else p :: setKey rest k v

/-- The mutable state of `UniversalMCPClient` (`mcp_universal_client.py:82-95`)
that the verified paths touch: the configured servers, the per-server
capability snapshots, the `"server:tool"`-keyed schema cache, and the
health map. -/
structure ClientState where
  servers : List MCPServerConfig
  capabilities : List (String × ServerCapabilities) := []
  toolsCache : List (String × StandardizedSchema) := []
  serverHealth : List (String × Bool) := []
deriving DecidableEq, Repr

/-- Embedding of `UniversalMCPClient.discover_server_capabilities`
(`mcp_universal_client.py:108-138`).  The network interaction of
`_discover_http_capabilities` (connect, optional `server_info` probe,
`list_tools`, per-tool schema normalization) is abstracted as `outcome`:
`.ok tools` is the normalized tool list of a successful run, `.error msg`
is any exception raised during it.  On success each tool is cached, the
capability snapshot replaces the server's previous one and the server is
marked healthy; on failure the error is logged, the server is marked
unhealthy and an empty capability set is returned (previous snapshots are
not touched). -/
def discover_server_capabilities (c : ClientState) (server : MCPServerConfig)
    (outcome : Except String (List StandardizedSchema)) :
    ServerCapabilities × ClientState :=
  match outcome with
  | .error _ =>
      (⟨server.name, "unknown", []⟩,
       { c with serverHealth := setKey c.serverHealth server.name false })
  | .ok tools =>
      let caps : ServerCapabilities := ⟨server.name, "unknown", tools⟩
      let cache1 := tools.foldl
        (fun tc t => setKey tc (server.name ++ ":" ++ t.name) t) c.toolsCache
      (caps,
       { c with
           toolsCache := cache1,
           capabilities := setKey c.capabilities server.name caps,
           serverHealth := setKey c.serverHealth server.name true })

/-- Embedding of `UniversalMCPClient.discover_all_servers`
(`mcp_universal_client.py:440-459`): every enabled server is discovered
(`asyncio.gather` with `return_exceptions=True`; each per-server task only
writes its own server's keys, so the concurrent fan-out is equivalent to
this sequential fold for distinctly named servers), and the accumulated
capability map is returned. -/
def discover_all_servers (c : ClientState)
    (outcomes : String → Except String (List StandardizedSchema)) :
    List (String × ServerCapabilities) × ClientState :=
  let enabled := c.servers.filter (fun s => s.enabled)
  let cFinal := enabled.foldl
    (fun st s => (discover_server_capabilities st s (outcomes s.name)).snd) c
  (cFinal.capabilities, cFinal)

/-- Embedding of `UniversalMCPClient._find_tool_schema`
(`mcp_universal_client.py:399-411`): exact `"server:tool"` lookup when a
server is named, otherwise the first cached schema with a matching tool
name in cache insertion order. -/
def find_tool_schema (c : ClientState) (toolName : String)
    (serverName? : Option String) : Option StandardizedSchema :=
  match serverName? with
  | some sn => lookupKey c.toolsCache (sn ++ ":" ++ toolName)
  | none =>
      ((c.toolsCache.find? (fun p => p.snd.name == toolName)).map Prod.snd)

/-- Stable descending insertion by an `Int`-valued key: the embedded
counterpart of Python's stable `list.sort(key=…, reverse=True)` for the
priority sort in `_select_server_for_tool`. -/
def insertByPriorityDesc (x : MCPServerConfig) :
    List MCPServerConfig → List MCPServerConfig
  | [] => [x]
  | y :: ys =>
      if y.priority < x.priority then x :: y :: ys else y :: insertByPriorityDesc x ys

/-- Embedding of `UniversalMCPClient._select_server_for_tool`
(`mcp_universal_client.py:413-438`): honor the preferred server when it is
enabled, healthy and advertises the tool; otherwise pick the
highest-priority enabled healthy server that advertises it. -/
def select_server_for_tool (c : ClientState) (toolName : String)
    (preferred? : Option String) : Option MCPServerConfig :=
  let viable := fun (s : MCPServerConfig) =>
    s.enabled && (lookupKey c.serverHealth s.name).getD false
      && hasKey c.toolsCache (s.name ++ ":" ++ toolName)
  let fromPreferred :=
    match preferred? with
    | some p => c.servers.find? (fun s => s.name == p && viable s)
    | none => none
  match fromPreferred with
  | some s => some s
  | none =>
      let available := c.servers.filter viable
      (available.foldr insertByPriorityDesc []).head?

/-- One transport invocation: the tool called and the (already converted)
arguments delivered to `session.call_tool`. -/
structure TransportCall where
  tool : String
  params : List (String × PyVal)
deriving DecidableEq, Repr

/-- The retry loop of `execute_tool_with_retry`
(`mcp_universal_client.py:298-329`).  `transport attempt` abstracts
`_execute_tool_on_server`: `.ok` is its normalized response, `.error` any
exception (which the loop logs, backs off on, and retries).  Returns the
response together with the transcript of transport calls actually made;
`elapsedMs` stands for the wall-clock `execution_time` stamped on a
successful response. -/
def retry_loop (toolName : String) (cparams : List (String × PyVal))
    (server : MCPServerConfig) (transport : ℕ → Except String NormalizedResponse)
    (elapsedMs : Int) : ℕ → ℕ → Option String →
    NormalizedResponse × List TransportCall
  | 0, _, lastError =>
      (⟨false, .pyNone,
        some ("Tool execution failed after " ++ toString server.retryCount
          ++ " attempts: " ++ (lastError.getD "None")),
        toolName, elapsedMs, server.name⟩, [])
  | fuel + 1, attempt, _ =>
      match transport attempt with
      | .ok response =>
          ({ response with executionTimeMs := elapsedMs, serverName := server.name },
           [⟨toolName, cparams⟩])
      | .error msg =>
          let (r, calls) :=
            retry_loop toolName cparams server transport elapsedMs fuel (attempt + 1) (some msg)
          (r, ⟨toolName, cparams⟩ :: calls)

/-- Embedding of `UniversalMCPClient.execute_tool_with_retry`
(`mcp_universal_client.py:272-329`): select a server, validate and convert
the parameters (failing fast with a parameter error, before any transport
call), then run the retry loop.  The returned list is the transcript of
transport calls made. -/
def execute_tool_with_retry (c : ClientState) (toolName : String)
    (params : List (String × PyVal)) (serverName? : Option String)
    (transport : ℕ → Except String NormalizedResponse) (elapsedMs : Int) :
    NormalizedResponse × List TransportCall :=
  match select_server_for_tool c toolName serverName? with
  | none =>
      (⟨false, .pyNone, some ("No server available for tool '" ++ toolName ++ "'"),
        toolName, 0, ""⟩, [])
  | some server =>
      let validation :=
        validate_parameters toolName (find_tool_schema c toolName (some server.name)) params
      if ¬ validation.valid then
        (⟨false, .pyNone,
          some ("Parameter validation failed: " ++ String.intercalate "; " validation.errors),
          toolName, 0, server.name⟩, [])
      else
        retry_loop toolName validation.convertedParams server transport elapsedMs
          server.retryCount 0 none

/-- Embedding of `CacheItem` (`performance_manager.py:18-39`). -/
structure CacheItem where
  key : String
  value : PyVal
  createdAt : ℚ
  expiresAt : Option ℚ
  accessCount : ℕ
  lastAccessed : ℚ
  sizeBytes : ℕ
deriving DecidableEq, Repr

/-- `CacheItem.is_expired` (`performance_manager.py:29-34`): strictly past
the expiry instant, never expired when `expires_at` is `None`. -/
def CacheItem.isExpired (item : CacheItem) (now : ℚ) : Bool :=
  match item.expiresAt with
  | none => false
  | some e => decide (e < now)

/-- Delete the first binding of `k` (Python `del d[k]`). -/
def eraseKey {α : Type} : List (String × α) → String → List (String × α)
  | [], _ => []
  | p :: rest, k => if p.fst == k then rest else p :: eraseKey rest k

/-- `OrderedDict.move_to_end(key)`: the key moves to the most-recent end. -/
def moveToEnd (l : List String) (k : String) : List String :=
  l.erase k ++ [k]

/-- The mutable state of `IntelligentCache`
(`performance_manager.py:67-80`): the item map, the recency order
(`access_order`, least recent first), and the running byte total. -/
structure IntelligentCache where
  maxSize : ℕ := 1000
  defaultTtl : ℚ := 300
  cache : List (String × CacheItem) := []
  accessOrder : List String := []
  sizeBytes : Int := 0
  maxSizeBytes : ℕ := 100 * 1024 * 1024
deriving DecidableEq, Repr

/-- `IntelligentCache._remove_item` (`performance_manager.py:158-165`). -/
def remove_item (c : IntelligentCache) (key : String) : IntelligentCache :=
  match lookupKey c.cache key with
  | none => c
  | some item =>
      { c with
          cache := eraseKey c.cache key,
          accessOrder := c.accessOrder.erase key,
          sizeBytes := c.sizeBytes - item.sizeBytes }

/-- `IntelligentCache.get` (`performance_manager.py:82-99`): a miss (absent
or expired key) returns Python `None`; a hit touches the item and moves it
to the most-recent end. -/
def cache_get (c : IntelligentCache) (key : String) (now : ℚ) :
    PyVal × IntelligentCache :=
  match lookupKey c.cache key with
  | none => (.pyNone, c)
  | some item =>
      if item.isExpired now then (.pyNone, remove_item c key)
      else
        let touched := { item with accessCount := item.accessCount + 1, lastAccessed := now }
        (item.value,
         { c with cache := setKey c.cache key touched,
                  accessOrder := moveToEnd c.accessOrder key })

/-- The `while` guard of `IntelligentCache.set`
(`performance_manager.py:116-117`): over the item-count cap or the byte
budget. -/
def needsRoom (c : IntelligentCache) (newSize : ℕ) : Bool :=
  decide (c.maxSize ≤ c.cache.length) || decide ((c.maxSizeBytes : Int) < c.sizeBytes + newSize)

/-- The eviction loop of `IntelligentCache.set`
(`performance_manager.py:116-119`) together with `_evict_lru`
(`performance_manager.py:167-177`): while over capacity, evict the key at
the least-recent end of `access_order`; report failure when the order is
empty.  The fuel argument only bounds the recursion: started at
`access_order.length` it never runs out on a consistent state (every
iteration removes the head key); the `false` results at exhausted fuel or
at a head key absent from the item map correspond to states the cache
never reaches (on them Python's `while` would not terminate). -/
def make_room_loop (newSize : ℕ) : ℕ → IntelligentCache → Bool × IntelligentCache
  | 0, c => if needsRoom c newSize then (false, c) else (true, c)
  | fuel + 1, c =>
      if needsRoom c newSize then
        match c.accessOrder with
        | [] => (false, c)
        | k :: _ =>
            if hasKey c.cache k then make_room_loop newSize fuel (remove_item c k)
            else (false, c)
      else (true, c)

/-- Entry point of the eviction loop, with the fuel fixed as documented. -/
def make_room (c : IntelligentCache) (newSize : ℕ) : Bool × IntelligentCache :=
  make_room_loop newSize c.accessOrder.length c

/-- `IntelligentCache.set` (`performance_manager.py:101-139`).  `sizeOf`
abstracts the `len(json.dumps(value).encode())` size estimate; `ttl?` is
the optional TTL (defaulted to `default_ttl`; a non-positive TTL stores a
never-expiring item).  Eviction runs before the existing binding of `key`
is replaced, exactly as in the source. -/
def cache_set (c : IntelligentCache) (key : String) (value : PyVal)
    (ttl? : Option ℚ) (now : ℚ) (sizeOf : PyVal → ℕ) : Bool × IntelligentCache :=
  let ttl := ttl?.getD c.defaultTtl
  let size := sizeOf value
  let roomResult := make_room c size
  if ¬ roomResult.fst then (false, roomResult.snd)
  else
    let c1 := roomResult.snd
    let c2 := if hasKey c1.cache key then remove_item c1 key else c1
    let expiresAt : Option ℚ := if 0 < ttl then some (now + ttl) else none
    let item : CacheItem := ⟨key, value, now, expiresAt, 0, now, size⟩
    (true,
     { c2 with
         cache := setKey c2.cache key item,
         accessOrder := c2.accessOrder ++ [key],
         sizeBytes := c2.sizeBytes + size })

/-- `IntelligentCache.delete` (`performance_manager.py:141-148`). -/
def cache_delete (c : IntelligentCache) (key : String) : Bool × IntelligentCache :=
  if hasKey c.cache key then (true, remove_item c key) else (false, c)

/-- The periodic `_cleanup_loop` body (`performance_manager.py:179-201`):
purge every expired item. -/
def cleanup_expired (c : IntelligentCache) (now : ℚ) : IntelligentCache :=
  let expiredKeys := (c.cache.filter (fun p => p.snd.isExpired now)).map Prod.fst
  expiredKeys.foldl remove_item c

/-- Python `set.add` on the embedded set of connection ids. -/
def pySetAdd (l : List ℕ) (c : ℕ) : List ℕ :=
  if c ∈ l then l else l ++ [c]

/-- The mutable state of `ConnectionPool` (`performance_manager.py:215-230`):
the idle list (`_pool`, appended at the tail, popped from the tail), the
in-use set (`_used_connections`), and the closed flag.  Connections are
opaque to the pool; they are embedded as ids handed out by the connection
factory, with `nextConn` the next fresh id. -/
structure ConnectionPool where
  maxConnections : ℕ := 10
  pool : List ℕ := []
  usedConnections : List ℕ := []
  nextConn : ℕ := 0
  closed : Bool := false
deriving DecidableEq, Repr

/-- Result of `ConnectionPool.acquire`: a connection, or one of the two
`RuntimeError` failure modes (closed pool; pool exhausted, raised
immediately rather than waiting). -/
inductive AcquireResult where
  | conn (c : ℕ) (s : ConnectionPool)
  | poolClosedError (s : ConnectionPool)
  | exhaustedError (s : ConnectionPool)
deriving DecidableEq, Repr

/-- Embedding of `ConnectionPool.acquire` (`performance_manager.py:236-263`):
reuse the most recently idled connection (`_pool.pop()` pops the tail);
otherwise create a fresh one while under `max_connections`; otherwise raise
`RuntimeError("Connection pool exhausted")` at once. -/
def pool_acquire (s : ConnectionPool) : AcquireResult :=
  if s.closed then .poolClosedError s
  else
    match s.pool.getLast? with
    | some c =>
        .conn c { s with pool := s.pool.dropLast, usedConnections := pySetAdd s.usedConnections c }
    | none =>
        if s.usedConnections.length < s.maxConnections then
          .conn s.nextConn
            { s with usedConnections := pySetAdd s.usedConnections s.nextConn,
                     nextConn := s.nextConn + 1 }
        else .exhaustedError s

/-- Embedding of `ConnectionPool.release` (`performance_manager.py:265-276`):
a connection that is checked out returns to the idle list while the pool
is open and the idle list is under `max_connections`; otherwise it is
closed and dropped.  Releasing an unknown connection is a no-op. -/
def pool_release (s : ConnectionPool) (c : ℕ) : ConnectionPool :=
  if c ∈ s.usedConnections then
    let s1 := { s with usedConnections := s.usedConnections.erase c }
    if ¬ s1.closed ∧ s1.pool.length < s1.maxConnections then
      { s1 with pool := s1.pool ++ [c] }
    else s1
  else s

/-- Embedding of `ConnectionPool.close` (`performance_manager.py:286-298`):
every idle and tracked in-use connection is torn down. -/
def pool_close (s : ConnectionPool) : ConnectionPool :=
  { s with closed := true, pool := [], usedConnections := [] }

/-- The pool states reachable from a fresh `ConnectionPool(max_connections=m)`
by any sequence of `acquire` (successful or failing) and `release`/`close`
calls.  A failing `acquire` leaves the state unchanged, so only the
successful case carries a state change. -/
inductive PoolReachable (m : ℕ) : ConnectionPool → Prop where
  | init : PoolReachable m ⟨m, [], [], 0, false⟩
  | acquireStep (s : ConnectionPool) (c : ℕ) (s2 : ConnectionPool) :
      PoolReachable m s → pool_acquire s = .conn c s2 → PoolReachable m s2
  | releaseStep (s : ConnectionPool) (c : ℕ) :
      PoolReachable m s → PoolReachable m (pool_release s c)
  | closeStep (s : ConnectionPool) :
      PoolReachable m s → PoolReachable m (pool_close s)

/-- The structural well-formedness of a pool state: the capacity is `m`, no
connection is both idle and in use (or tracked twice), all ids are below
the fresh-id counter, and the total connection count is bounded by `m`. -/
def PoolInv (m : ℕ) (s : ConnectionPool) : Prop :=
  s.maxConnections = m ∧
  (s.pool ++ s.usedConnections).Nodup ∧
  (∀ c ∈ s.pool ++ s.usedConnections, c < s.nextConn) ∧
  s.pool.length + s.usedConnections.length ≤ m

/-- Embedding of `ToolPerformance` (`tool_registry.py:57-68`). -/
structure ToolPerformance where
  toolName : String
  serverName : String
  successCount : ℕ := 0
  failureCount : ℕ := 0
  avgResponseTimeMs : ℚ := 0
  lastUsed : ℚ := 0
  lastSuccess : ℚ := 0
  lastFailure : ℚ := 0
  errorPatterns : List String := []
deriving DecidableEq, Repr

/-- Embedding of `ToolMapping` (`tool_registry.py:46-55`); the intent is
embedded as its string value. -/
structure ToolMapping where
  intent : String
  primaryTools : List String := []
  fallbackTools : List String := []
  requiredParams : List String := []
  optionalParams : List String := []
deriving DecidableEq, Repr

/-- Embedding of `FallbackChain` (`tool_registry.py:70-76`); `conditions`
is never read by the execution path and is omitted. -/
structure FallbackChain where
  primaryTool : String
  fallbacks : List String := []
  maxFallbackAttempts : ℕ := 3
deriving DecidableEq, Repr

/-- The mutable state of `ToolRegistry` (`tool_registry.py:78-92`) read by
the verified paths: the intent mappings, the per-`"server:tool"`
performance map, the tool schemas keyed `"server:tool"`, the
server → advertised-tools index, and the fallback chains.
`server_tools` is a `defaultdict(set)`; it is embedded as an association
list of duplicate-free tool-name lists in insertion order. -/
structure RegistryState where
  toolMappings : List (String × ToolMapping) := []
  performanceMetrics : List (String × ToolPerformance) := []
  availableTools : List (String × StandardizedSchema) := []
  serverTools : List (String × List String) := []
  fallbackChains : List (String × FallbackChain) := []
deriving DecidableEq, Repr

/-- `defaultdict(set)` insertion `self.server_tools[server].add(tool)`. -/
def addServerTool (l : List (String × List String)) (server tool : String) :
    List (String × List String) :=
  match lookupKey l server with
  | none => l ++ [(server, [tool])]
  | some tools =>
      if tool ∈ tools then l else setKey l server (tools ++ [tool])

/-- Embedding of `ToolRegistry.discover_tools` (`tool_registry.py:206-238`)
given the capability map produced by `discover_all_servers`: every
discovered tool is recorded in the schema map and the server index, and a
fresh `ToolPerformance` entry is seeded unless one already exists.
(`tool_categories` is only cosmetic and is not modelled.) -/
def discover_tools (r : RegistryState)
    (capabilities : List (String × ServerCapabilities)) : RegistryState :=
  capabilities.foldl
    (fun st entry =>
      entry.snd.tools.foldl
        (fun st2 t =>
          let key := entry.fst ++ ":" ++ t.name
          { st2 with
              availableTools := setKey st2.availableTools key t,
              serverTools := addServerTool st2.serverTools entry.fst t.name,
              performanceMetrics :=
                if hasKey st2.performanceMetrics key then st2.performanceMetrics
                else st2.performanceMetrics ++ [(key, { toolName := t.name, serverName := entry.fst })] })
        st)
    r

/-- The success-rate term of the selection score
(`tool_registry.py:308-310`): the observed rate, or 0.5 for an entry with
no recorded executions. -/
def successRateOf (p : ToolPerformance) : ℚ :=
  if 0 < p.successCount + p.failureCount then
    (p.successCount : ℚ) / ((p.successCount : ℚ) + (p.failureCount : ℚ))
  else 1 / 2

/-- The selection score (`tool_registry.py:313`):
`success_rate * 0.7 + (1000 / max(avg_response_time_ms, 1)) * 0.3`.
Python's float constants are embedded as the exact rationals they denote
in the source text. -/
def scoreOf (p : ToolPerformance) : ℚ :=
  successRateOf p * (7 / 10) + (1000 / max p.avgResponseTimeMs 1) * (3 / 10)

/-- One entry of the `candidate_servers` list
(`tool_registry.py:315-320`). -/
structure Candidate where
  serverName : String
  toolName : String
  score : ℚ
  lastSuccess : ℚ
deriving DecidableEq, Repr

/-- The sort key `(score, last_success)` compared the Python-tuple way:
`candidateGe a b` holds iff `a` sorts no later than `b` in the descending
order, i.e. `a`'s key is lexicographically at least `b`'s. -/
def candidateGe (a b : Candidate) : Prop :=
  b.score < a.score ∨ (a.score = b.score ∧ b.lastSuccess ≤ a.lastSuccess)

instance : DecidableRel candidateGe := fun a b => by
  unfold candidateGe
  exact instDecidableOr

instance : IsTotal Candidate candidateGe := by
  constructor
  intro a b
  unfold candidateGe
  rcases lt_trichotomy a.score b.score with h | h | h
  · right; left; exact h
  · rcases le_total a.lastSuccess b.lastSuccess with h2 | h2
    · right; right; exact ⟨h.symm, h2⟩
    · left; right; exact ⟨h, h2⟩
  · left; left; exact h

instance : IsTrans Candidate candidateGe := by
  constructor
  intro a b c hab hbc
  unfold candidateGe at *
  rcases hab with h1 | ⟨h1, h1t⟩ <;> rcases hbc with h2 | ⟨h2, h2t⟩
  · left; linarith
  · left; linarith
  · left; linarith
  · right; exact ⟨h1.trans h2, h2t.trans h1t⟩

/-- The candidate sort of `tool_registry.py:326`: Python's stable
`list.sort(key=lambda x: (x.score, x.last_success), reverse=True)`, which
keeps original order among equal keys, is the stable insertion sort by
the descending key relation. -/
def sortCandidatesDesc (l : List Candidate) : List Candidate :=
  l.insertionSort candidateGe

/-- The candidate list built by `ToolRegistry._find_best_server_for_tool`
(`tool_registry.py:297-320`): servers advertising the tool, in index
order, each contributing a candidate only when a performance entry exists
for the `"server:tool"` key. -/
def candidatesFor (r : RegistryState) (toolName : String) : List Candidate :=
  r.serverTools.foldl
    (fun acc entry =>
      if toolName ∈ entry.snd then
        match lookupKey r.performanceMetrics (entry.fst ++ ":" ++ toolName) with
        | some p => acc ++ [⟨entry.fst, toolName, scoreOf p, p.lastSuccess⟩]
        | none => acc
      else acc)
    []

/-- Embedding of `ToolRegistry._find_best_server_for_tool`
(`tool_registry.py:293-329`): sort the candidates by `(score,
last_success)` descending and return the `(tool_name, server_name)` of the
head, or `none` when no candidate exists. -/
def find_best_server_for_tool (r : RegistryState) (toolName : String) :
    Option (String × String) :=
  match sortCandidatesDesc (candidatesFor r toolName) with
  | [] => none
  | best :: _ => some (best.toolName, best.serverName)

/-- The primary/fallback scan of `ToolRegistry.select_optimal_tool`
(`tool_registry.py:274-288`): first tool of the list that resolves to a
server. -/
def find_first_available (r : RegistryState) : List String → Option (String × String)
  | [] => none
  | t :: ts =>
      match find_best_server_for_tool r t with
      | some result => some result
      | none => find_first_available r ts

/-- Embedding of `ToolRegistry.select_optimal_tool`
(`tool_registry.py:262-291`): resolve the intent's mapping, try the
primary tools in order, then the fallback tools in order. -/
def select_optimal_tool (r : RegistryState) (intent : String) :
    Option (String × String) :=
  match lookupKey r.toolMappings intent with
  | none => none
  | some mapping =>
      match find_first_available r mapping.primaryTools with
      | some result => some result
      | none => find_first_available r mapping.fallbackTools

/-- Outcome of one `mcp_client.execute_tool_with_retry` call as seen by
`_execute_tool_with_tracking`: a normalized response, or an exception
(caught by its `except` clause). -/
inductive ExecOutcome where
  | resp (r : NormalizedResponse)
  | exc (msg : String)
deriving DecidableEq, Repr

/-- The metric update of `ToolRegistry._execute_tool_with_tracking`
(`tool_registry.py:396-417`) for a response (not an exception):
on success the success count, last-success stamp and running average are
updated — the average over `total_calls = success_count + failure_count`
(failures included in the denominator, their latencies never added);
on failure only the failure count, last-failure stamp and the bounded
error sample change.  `executionTime` is the measured latency in ms and
`now` the wall-clock stamp. -/
def update_tool_performance (p : ToolPerformance) (response : NormalizedResponse)
    (executionTime now : ℚ) : ToolPerformance :=
  let p1 :=
    if response.success then
      let totalCalls : ℚ := ((p.successCount + 1 + p.failureCount : ℕ) : ℚ)
      { p with
          successCount := p.successCount + 1,
          lastSuccess := now,
          avgResponseTimeMs :=
            (p.avgResponseTimeMs * (totalCalls - 1) + executionTime) / totalCalls }
    else
      { p with
          failureCount := p.failureCount + 1,
          lastFailure := now,
          errorPatterns :=
            match response.error with
            | some e =>
                if e ≠ "" ∧ p.errorPatterns.length < 10 ∧ e ∉ p.errorPatterns then
                  p.errorPatterns ++ [e.take 100]
                else p.errorPatterns
            | none => p.errorPatterns }
  { p1 with lastUsed := now }

/-- Embedding of `ToolRegistry._execute_tool_with_tracking`
(`tool_registry.py:378-431`): look up (or lazily create) the performance
entry, run the tool (its outcome supplied as `outcome`), update the entry,
and return the response — a synthesized failure response when the
execution raised. -/
def execute_tool_with_tracking (metrics : List (String × ToolPerformance))
    (toolName serverName : String) (outcome : ExecOutcome)
    (executionTime now : ℚ) :
    NormalizedResponse × List (String × ToolPerformance) :=
  let key := serverName ++ ":" ++ toolName
  let p := (lookupKey metrics key).getD
    { toolName := toolName, serverName := serverName }
  match outcome with
  | .resp response =>
      (response, setKey metrics key (update_tool_performance p response executionTime now))
  | .exc msg =>
      let p1 := { p with
        failureCount := p.failureCount + 1, lastFailure := now, lastUsed := now }
      (⟨false, .pyNone, some ("Tool execution failed: " ++ msg), toolName, 0, serverName⟩,
       setKey metrics key p1)

/-- The fallback walk of `ToolRegistry.execute_with_fallback`
(`tool_registry.py:352-375`): for each fallback tool in chain order that
resolves to a server, execute it; return the first success.  When the
chain is exhausted without a success the function returns `primaryResp` —
the failure of the original (primary) attempt, not the failure of the
last fallback attempt.  `execf` abstracts the awaited
`execute_tool_with_retry` network call; `times n` supplies the measured
latency and wall-clock stamp of the `n`-th execution of this
`execute_with_fallback` call. -/
def fallback_loop (r : RegistryState) (params : List (String × PyVal))
    (execf : String → String → List (String × PyVal) → ExecOutcome)
    (times : ℕ → ℚ × ℚ) (primaryResp : NormalizedResponse) :
    List String → ℕ → NormalizedResponse × RegistryState
  | [], _ => (primaryResp, r)
  | fb :: rest, idx =>
      match find_best_server_for_tool r fb with
      | none => fallback_loop r params execf times primaryResp rest idx
      | some (fbTool, fbServer) =>
          let t := times idx
          let step := execute_tool_with_tracking r.performanceMetrics fbTool fbServer
            (execf fbTool fbServer params) t.fst t.snd
          let r1 := { r with performanceMetrics := step.snd }
          if step.fst.success then (step.fst, r1)
          else fallback_loop r1 params execf times primaryResp rest (idx + 1)

/-- Embedding of `ToolRegistry.execute_with_fallback`
(`tool_registry.py:331-376`): select the optimal tool for the intent,
execute it, and on failure walk the selected tool's fallback chain,
returning the first fallback success or — when every attempt fails — the
primary attempt's failure response. -/
def execute_with_fallback (r : RegistryState) (intent : String)
    (params : List (String × PyVal))
    (execf : String → String → List (String × PyVal) → ExecOutcome)
    (times : ℕ → ℚ × ℚ) : NormalizedResponse × RegistryState :=
  match select_optimal_tool r intent with
  | none =>
      (⟨false, .pyNone, some ("No available tool for intent: " ++ intent), "", 0, ""⟩, r)
  | some (toolName, serverName) =>
      let t := times 0
      let primary := execute_tool_with_tracking r.performanceMetrics toolName serverName
        (execf toolName serverName params) t.fst t.snd
      let r1 := { r with performanceMetrics := primary.snd }
      if primary.fst.success then (primary.fst, r1)
      else
        match lookupKey r.fallbackChains toolName with
        | none => (primary.fst, r1)
        | some chain => fallback_loop r1 params execf times primary.fst chain.fallbacks 1

/-- Circuit-breaker phase: the source's `"closed"` / `"open"` /
`"half-open"` state strings (`recovery_manager.py:546-598`). -/
inductive CBPhase where
  | closed
  | opened
  | halfOpen
deriving DecidableEq, Repr

/-- One `self.circuit_breakers[circuit_key]` record
(`recovery_manager.py:567-574`).  `openedAt` is always a real timestamp
while the phase is `opened` (they are assigned together), and `None`
otherwise. -/
structure CircuitBreakerState where
  failureCount : ℕ
  successCount : ℕ
  phase : CBPhase
  openedAt : Option ℚ
  timeout : ℚ
deriving DecidableEq, Repr

/-- The freshly created record of `_update_circuit_breaker`
(`recovery_manager.py:567-574`): counts zero, closed, 300-second
timeout. -/
def defaultCircuitBreaker : CircuitBreakerState :=
  ⟨0, 0, .closed, none, 300⟩

/-- Embedding of `RecoveryManager._is_circuit_breaker_open`
(`recovery_manager.py:546-562`).  An absent or non-open breaker allows the
request; an open breaker whose timeout has elapsed since `opened_at` is
moved to half-open and allows the request; otherwise the request is
blocked.  The updated record is returned alongside, since the half-open
transition mutates it. -/
def is_circuit_breaker_open (cb? : Option CircuitBreakerState) (now : ℚ) :
    Bool × Option CircuitBreakerState :=
  match cb? with
  | none => (false, none)
  | some cb =>
      if cb.phase ≠ .opened then (false, some cb)
      else if cb.timeout < now - cb.openedAt.getD 0 then
        (false, some { cb with phase := .halfOpen })
      else (true, some cb)

/-- Embedding of `RecoveryManager._update_circuit_breaker`
(`recovery_manager.py:564-598`), driven by the generated recovery action's
estimated success rate: a rate below 0.3 counts as a failure (opening the
breaker at the fifth failure, but only from the closed phase); a rate
above 0.7 counts as a success (the third success closes the breaker and
resets the failure count); anything in between changes nothing. -/
def update_circuit_breaker (cb? : Option CircuitBreakerState)
    (estimatedSuccessRate now : ℚ) : CircuitBreakerState :=
  let cb := cb?.getD defaultCircuitBreaker
  if estimatedSuccessRate < 3 / 10 then
    let cb1 := { cb with failureCount := cb.failureCount + 1 }
    if 5 ≤ cb1.failureCount ∧ cb1.phase = .closed then
      { cb1 with phase := .opened, openedAt := some now }
    else cb1
  else if 7 / 10 < estimatedSuccessRate then
    let cb1 := { cb with successCount := cb.successCount + 1 }
    if 3 ≤ cb1.successCount then
      { cb1 with failureCount := 0, phase := .closed, openedAt := none }
    else cb1
  else cb

/-- The circuit-breaker slice of `RecoveryManager.handle_failure`
(`recovery_manager.py:234-253`) for one key: the allow-check runs first
(possibly moving an expired open breaker to half-open); when it reports
open, handling short-circuits to a graceful-degradation action with no
further work and no breaker update (the Bool result `true` records this
blocked path); otherwise the generated action's estimated success rate is
fed to `_update_circuit_breaker`. -/
def circuit_breaker_step (cb? : Option CircuitBreakerState)
    (now estimatedSuccessRate : ℚ) : Bool × Option CircuitBreakerState :=
  let check := is_circuit_breaker_open cb? now
  if check.fst then (true, check.snd)
  else (false, some (update_circuit_breaker check.snd estimatedSuccessRate now))

/-- A circuit-breaker history for one key, folded over `handle_failure`
events `(now, estimated_success_rate)` starting from no record. -/
def runCircuitBreaker (events : List (ℚ × ℚ)) : Option CircuitBreakerState :=
  events.foldl (fun cb e => (circuit_breaker_step cb e.fst e.snd).snd) none

/-- An execution outcome that `execute_with_fallback` treats as a failure:
a non-success response, or an exception. -/
def ExecOutcome.failed : ExecOutcome → Bool
  | .resp r => !r.success
  | .exc _ => true

/-- The registry state of the C2 scenario: intent `"list_jobs"` maps to
primary tool `"list_jobs"` (advertised by server `"srv"`) whose fallback
chain names `"search_jobs"` (advertised by server `"srv2"`); both pairs
have seeded performance entries. -/
def c2Registry : RegistryState :=
  { toolMappings := [("list_jobs", { intent := "list_jobs", primaryTools := ["list_jobs"] })],
    performanceMetrics :=
      [("srv:list_jobs", { toolName := "list_jobs", serverName := "srv" }),
       ("srv2:search_jobs", { toolName := "search_jobs", serverName := "srv2" })],
    availableTools := [],
    serverTools := [("srv", ["list_jobs"]), ("srv2", ["search_jobs"])],
    fallbackChains :=
      [("list_jobs", { primaryTool := "list_jobs", fallbacks := ["search_jobs"] })] }

/-- The executor of the C2 scenario: the primary tool fails with error
`"E1"`, every other tool (in particular the fallback) fails with `"E2"`. -/
def c2Exec (t : String) (_s : String) (_p : List (String × PyVal)) : ExecOutcome :=
  if t = "list_jobs" then .resp { success := false, error := some "E1" }
  else .resp { success := false, error := some "E2" }

/-- The reachable server of the C7 scenario. -/
def c7ServerA : MCPServerConfig := { name := "A", url := "uA" }

/-- The unreachable server of the C7 scenario. -/
def c7ServerB : MCPServerConfig := { name := "B", url := "uB" }

/-- The one tool server A advertises in the C7 scenario. -/
def c7Tool : StandardizedSchema :=
  { name := "list_jobs", description := "", parameters := [], required := [] }

/-- Discovery outcomes of the C7 scenario: A responds with its full tool
list, B raises a connection error. -/
def c7Outcomes (n : String) : Except String (List StandardizedSchema) :=
  if n = "A" then .ok [c7Tool] else .error "connection refused"

/-- Modelled from the spec, for the refinement half of C6 only: the
server-selection scoring sentence of §4.2 —
`score = successRate*0.7 + (1000/max(avgLatencyMs,1))*0.3`, with
`successRate` defaulting to 0.5 when no history exists.  Compared below
with `scoreOf`, the score embedded from the source. -/
def specScore (successCount failureCount : ℕ) (avgLatencyMs : ℚ) : ℚ :=
  let successRate : ℚ :=
    if successCount + failureCount = 0 then 1 / 2
    else (successCount : ℚ) / ((successCount : ℚ) + (failureCount : ℚ))
  successRate * (7 / 10) + (1000 / max avgLatencyMs 1) * (3 / 10)

/-- The one-server registry state of the C6 witness scenario: server
`"srv"` advertises `"list_jobs"` with a seeded (history-free) performance
entry. -/
def c6Registry : RegistryState :=
  { serverTools := [("srv", ["list_jobs"])],
    performanceMetrics := [("srv:list_jobs", { toolName := "list_jobs", serverName := "srv" })] }

/-- The configured server of the C6 witness scenario. -/
def c6Server : MCPServerConfig := { name := "srv", url := "u" }

/-- Discovery outcome of the C6 witness scenario. -/
def c6Outcomes (_ : String) : Except String (List StandardizedSchema) :=
  .ok [{ name := "list_jobs", description := "", parameters := [], required := [] }]

/-- The cache bounds of the claims: never more items than `max_size`,
never more bytes than `_max_size_bytes`. -/
def CacheBounds (c : IntelligentCache) : Prop :=
  c.cache.length ≤ c.maxSize ∧ c.sizeBytes ≤ (c.maxSizeBytes : Int)

/-- The cache states reachable from a fresh
`IntelligentCache(max_size, default_ttl)` by any sequence of `get`, `set`,
`delete` and periodic-cleanup operations. -/
inductive CacheReachable (maxSize : ℕ) (defaultTtl : ℚ) : IntelligentCache → Prop where
  | init : CacheReachable maxSize defaultTtl { maxSize := maxSize, defaultTtl := defaultTtl }
  | getStep (c : IntelligentCache) (k : String) (now : ℚ) :
      CacheReachable maxSize defaultTtl c →
      CacheReachable maxSize defaultTtl (cache_get c k now).snd
  | setStep (c : IntelligentCache) (k : String) (v : PyVal) (ttl? : Option ℚ) (now : ℚ)
      (sizeOf : PyVal → ℕ) :
      CacheReachable maxSize defaultTtl c →
      CacheReachable maxSize defaultTtl (cache_set c k v ttl? now sizeOf).snd
  | deleteStep (c : IntelligentCache) (k : String) :
      CacheReachable maxSize defaultTtl c →
      CacheReachable maxSize defaultTtl (cache_delete c k).snd
  | cleanupStep (c : IntelligentCache) (now : ℚ) :
      CacheReachable maxSize defaultTtl c →
      CacheReachable maxSize defaultTtl (cleanup_expired c now)

/-- Size estimator for the cache scenarios: every value serializes to one
byte, so the byte budget never interferes with the item-count cap. -/
def unitSize (_ : PyVal) : ℕ := 1

/-- A fresh cache with `max_size = 2` (the other fields at their source
defaults), shared by the eviction scenarios. -/
def cacheMax2 : IntelligentCache := { maxSize := 2 }

/-- C3 scenario, step 1: `set("k1", "a", ttl=1)` at time 0. -/
def c3State1 : IntelligentCache :=
  (cache_set cacheMax2 "k1" (.pyStr "a") (some 1) 0 unitSize).snd

/-- C3 scenario, step 2: `set("k2", "b", ttl=100)` at time 0. -/
def c3State2 : IntelligentCache :=
  (cache_set c3State1 "k2" (.pyStr "b") (some 100) 0 unitSize).snd

/-- C3 scenario, step 3: `set("k3", "c", ttl=100)` at time 2, when `k1`
has expired and `k2` has not. -/
def c3State3 : IntelligentCache :=
  (cache_set c3State2 "k3" (.pyStr "c") (some 100) 2 unitSize).snd

/-- C8 scenario, step 1: `set("k1", v1)` (default TTL) at time 0,
on a fresh cache with `max_items = 2`. -/
def c8State1 (v1 : PyVal) : IntelligentCache :=
  (cache_set cacheMax2 "k1" v1 none 0 unitSize).snd

/-- C8 scenario, step 2: `set("k2", v2)` at time 0. -/
def c8State2 (v1 v2 : PyVal) : IntelligentCache :=
  (cache_set (c8State1 v1) "k2" v2 none 0 unitSize).snd

/-- C8 scenario, step 3: `get("k1")` at time 0, making `k2` the
least-recently-accessed key. -/
def c8State2t (v1 v2 : PyVal) : IntelligentCache :=
  (cache_get (c8State2 v1 v2) "k1" 0).snd

/-- C8 scenario, step 4: `set("k3", v3)` at time 0, which must evict. -/
def c8State3 (v1 v2 v3 : PyVal) : IntelligentCache :=
  (cache_set (c8State2t v1 v2) "k3" v3 none 0 unitSize).snd

/-- The `PerformanceMetrics` dataclass (`performance_manager.py:41-64`).
`operation_name` is a required positional field; every other field has a
default.  `float('inf')` for `min_duration_ms` is modelled as `none`. -/
structure PerformanceMetrics where
  operationName : String
  totalCalls : ℕ := 0
  totalDurationMs : ℚ := 0
  minDurationMs : Option ℚ := none
  maxDurationMs : ℚ := 0
  cacheHits : ℕ := 0
  cacheMisses : ℕ := 0
  errorCount : ℕ := 0
  lastCallTime : ℚ := 0
deriving DecidableEq, Repr

/-- The `TypeError` Python raises when `defaultdict(PerformanceMetrics)`
invokes its factory: `PerformanceMetrics()` lacks the required
`operation_name` argument. -/
def typeErrorMetrics : String :=
  "TypeError: PerformanceMetrics.__init__() missing 1 required positional argument: 'operation_name'"

/-- The lookup `self.metrics[operation_name]` on
`self.metrics = defaultdict(PerformanceMetrics)`
(`performance_manager.py:318`): a present key yields its entry; a missing
key makes the defaultdict call `PerformanceMetrics()` with no argument,
which raises `TypeError` because `operation_name` has no default. -/
def metricsEntry (ms : List (String × PerformanceMetrics)) (name : String) :
    Except String PerformanceMetrics :=
  match lookupKey ms name with
  | some m => .ok m
  | none => .error typeErrorMetrics

/-- `min(metrics.min_duration_ms, duration_ms)` with `float('inf')` as
`none`. -/
def minDur : Option ℚ → ℚ → Option ℚ
  | none, d => some d
  | some m, d => some (min m d)

/-- `PerformanceManager._record_cache_hit` (`performance_manager.py:451-454`). -/
def record_cache_hit (ms : List (String × PerformanceMetrics)) (name : String) :
    Except String (List (String × PerformanceMetrics)) :=
  match metricsEntry ms name with
  | .ok m => .ok (setKey ms name { m with cacheHits := m.cacheHits + 1 })
  | .error e => .error e

/-- `PerformanceManager._record_cache_miss` (`performance_manager.py:456-459`). -/
def record_cache_miss (ms : List (String × PerformanceMetrics)) (name : String) :
    Except String (List (String × PerformanceMetrics)) :=
  match metricsEntry ms name with
  | .ok m => .ok (setKey ms name { m with cacheMisses := m.cacheMisses + 1 })
  | .error e => .error e

/-- `PerformanceManager._record_operation_success`
(`performance_manager.py:461-468`). -/
def record_operation_success (ms : List (String × PerformanceMetrics))
    (name : String) (durationMs now : ℚ) :
    Except String (List (String × PerformanceMetrics)) :=
  match metricsEntry ms name with
  | .ok m => .ok (setKey ms name
      { m with totalCalls := m.totalCalls + 1,
               totalDurationMs := m.totalDurationMs + durationMs,
               minDurationMs := minDur m.minDurationMs durationMs,
               maxDurationMs := max m.maxDurationMs durationMs,
               lastCallTime := now })
  | .error e => .error e

/-- `PerformanceManager._record_operation_error`
(`performance_manager.py:470-476`). -/
def record_operation_error (ms : List (String × PerformanceMetrics))
    (name : String) (durationMs now : ℚ) :
    Except String (List (String × PerformanceMetrics)) :=
  match metricsEntry ms name with
  | .ok m => .ok (setKey ms name
      { m with totalCalls := m.totalCalls + 1,
               errorCount := m.errorCount + 1,
               totalDurationMs := m.totalDurationMs + durationMs,
               lastCallTime := now })
  | .error e => .error e

/-- The state of `PerformanceManager` (`performance_manager.py:312-326`)
relevant to `cached_operation`: the cache and the metrics dict
(`defaultdict(PerformanceMetrics)` starts empty). -/
structure PerformanceManager where
  cache : IntelligentCache := {}
  metrics : List (String × PerformanceMetrics) := []
deriving DecidableEq, Repr

/-- A fresh `PerformanceManager()`. -/
def performanceManagerInit : PerformanceManager := {}

/-- `PerformanceManager.cached_operation` (`performance_manager.py:327-360`).
`op` abstracts `await operation()` (its result or raised exception),
`opName` is `operation.__name__`, `keyPre` the `cache_key_prefix`,
`durationMs` the measured wall-clock duration.  The result triple is
(returned value or raised exception, manager state, whether the operation
body was actually executed).  A raised `TypeError` from a metrics recorder
propagates out of the method. -/
def cached_operation (pm : PerformanceManager) (key opName keyPre : String)
    (op : Except String PyVal) (ttl? : Option ℚ) (now durationMs : ℚ)
    (sizeOf : PyVal → ℕ) : Except String PyVal × PerformanceManager × Bool :=
  let cacheKey := keyPre ++ ":" ++ key
  let got := cache_get pm.cache cacheKey now
  if got.fst ≠ .pyNone then
    match record_cache_hit pm.metrics opName with
    | .ok ms => (.ok got.fst, ⟨got.snd, ms⟩, false)
    | .error e => (.error e, ⟨got.snd, pm.metrics⟩, false)
  else
    match record_cache_miss pm.metrics opName with
    | .error e => (.error e, ⟨got.snd, pm.metrics⟩, false)
    | .ok ms =>
      match op with
      | .ok result =>
          let c2 := (cache_set got.snd cacheKey result ttl? now sizeOf).snd
          match record_operation_success ms opName durationMs now with
          | .ok ms2 => (.ok result, ⟨c2, ms2⟩, true)
          | .error e => (.error e, ⟨c2, ms⟩, true)
      | .error e =>
          match record_operation_error ms opName durationMs now with
          | .ok ms2 => (.error e, ⟨got.snd, ms2⟩, true)
          | .error e2 => (.error e2, ⟨got.snd, ms⟩, true)

theorem pool_inv_init (m : ℕ) : PoolInv m ⟨m, [], [], 0, false⟩ := by
  refine ⟨rfl, by simp, by simp, by simp⟩

theorem pool_inv_acquire {m : ℕ} {s s2 : ConnectionPool} {c : ℕ}
    (hinv : PoolInv m s) (h : pool_acquire s = .conn c s2) : PoolInv m s2 := by
  obtain ⟨hm, hnd, hlt, hlen⟩ := hinv
  unfold pool_acquire at h
  by_cases hc : s.closed = true
  · simp [hc] at h
  · rw [if_neg hc] at h
    rcases hgl : s.pool.getLast? with _ | a
    · rw [hgl] at h
      simp only [] at h
      by_cases hroom : s.usedConnections.length < s.maxConnections
      · rw [if_pos hroom] at h
        obtain ⟨hca, hs2⟩ := AcquireResult.conn.inj h
        have hfresh : s.nextConn ∉ s.usedConnections := by
          intro hmem
          have := hlt s.nextConn (by simp [hmem])
          omega
        have hpool : s.pool = [] := List.getLast?_eq_none_iff.mp hgl
        have hund : s.usedConnections.Nodup := by
          rw [hpool] at hnd; simpa using hnd
        have hadd : pySetAdd s.usedConnections s.nextConn
            = s.usedConnections ++ [s.nextConn] := by
          simp [pySetAdd, hfresh]
        subst hs2
        refine ⟨hm, ?_, ?_, ?_⟩
        · dsimp only
          rw [hadd, hpool, List.nil_append, List.nodup_append]
          refine ⟨hund, List.nodup_singleton _, ?_⟩
          intro x hxu hxn
          rw [List.mem_singleton] at hxn
          exact hfresh (hxn ▸ hxu)
        · intro x hx
          dsimp only at hx ⊢
          rw [hadd, hpool, List.nil_append, List.mem_append, List.mem_singleton] at hx
          rcases hx with hx | hx
          · have := hlt x (by simp [hx])
            omega
          · omega
        · dsimp only
          rw [hadd, hpool]
          simp only [List.length_nil, List.length_append, List.length_singleton]
          rw [hm] at hroom
          omega
      · rw [if_neg hroom] at h
        exact absurd h (by simp)
    · rw [hgl] at h
      simp only [] at h
      obtain ⟨hca, hs2⟩ := AcquireResult.conn.inj h
      obtain ⟨t, hpool⟩ := List.getLast?_eq_some_iff.mp hgl
      have hamem : a ∈ s.pool := by rw [hpool]; simp
      have hanotu : a ∉ s.usedConnections := by
        have hdisj := List.disjoint_of_nodup_append hnd
        exact fun hmem => hdisj hamem hmem
      subst hs2
      have hadd : pySetAdd s.usedConnections a = s.usedConnections ++ [a] := by
        simp [pySetAdd, hanotu]
      have hdl : s.pool.dropLast = t := by rw [hpool]; exact List.dropLast_concat
      have hperm : List.Perm ((t ++ [a]) ++ s.usedConnections)
          (t ++ (s.usedConnections ++ [a])) := by
        rw [List.append_assoc]
        exact List.Perm.append_left t List.perm_append_comm
      refine ⟨hm, ?_, ?_, ?_⟩
      · rw [hadd, hdl]
        exact hperm.nodup (hpool ▸ hnd)
      · intro x hx
        rw [hadd, hdl] at hx
        simp only [List.mem_append, List.mem_singleton] at hx
        rcases hx with hx | hx | hx
        · exact hlt x (by rw [hpool]; simp [hx])
        · exact hlt x (by simp [hx])
        · subst hx
          exact hlt x (List.mem_append_left _ hamem)
      · rw [hadd, hdl]
        rw [hpool] at hlen
        simp only [List.length_append, List.length_singleton] at hlen ⊢
        omega

theorem pool_inv_release {m : ℕ} {s : ConnectionPool} (c : ℕ)
    (hinv : PoolInv m s) : PoolInv m (pool_release s c) := by
  obtain ⟨hm, hnd, hlt, hlen⟩ := hinv
  unfold pool_release
  by_cases hc : c ∈ s.usedConnections
  · rw [if_pos hc]
    have hlenu : 1 ≤ s.usedConnections.length := List.length_pos_of_mem hc
    have herase : (s.usedConnections.erase c).length = s.usedConnections.length - 1 :=
      List.length_erase_of_mem hc
    by_cases hback : ¬ s.closed = true ∧ s.pool.length < s.maxConnections
    · rw [if_pos hback]
      have hperm : List.Perm (s.pool ++ s.usedConnections)
          ((s.pool ++ [c]) ++ s.usedConnections.erase c) := by
        rw [List.append_assoc]
        exact List.Perm.append_left s.pool
          ((List.perm_cons_erase hc).trans (List.Perm.refl _))
      refine ⟨hm, ?_, ?_, ?_⟩
      · exact hperm.nodup hnd
      · intro x hx
        have : x ∈ s.pool ++ s.usedConnections := (hperm.symm.mem_iff).mp hx
        exact hlt x this
      · simp only [List.length_append, List.length_singleton, herase]
        omega
    · rw [if_neg hback]
      have hsub : List.Sublist (s.pool ++ s.usedConnections.erase c)
          (s.pool ++ s.usedConnections) :=
        List.Sublist.append_left (List.erase_sublist c s.usedConnections) s.pool
      refine ⟨hm, hsub.nodup hnd, ?_, ?_⟩
      · intro x hx
        exact hlt x (hsub.subset hx)
      · have := hsub.length_le
        simp only [List.length_append] at this ⊢
        omega
  · rw [if_neg hc]
    exact ⟨hm, hnd, hlt, hlen⟩

theorem pool_inv_close {m : ℕ} {s : ConnectionPool} (hinv : PoolInv m s) :
    PoolInv m (pool_close s) := by
  obtain ⟨hm, _, _, _⟩ := hinv
  exact ⟨hm, by simp [pool_close], by simp [pool_close], by simp [pool_close]⟩

theorem pool_reachable_inv {m : ℕ} {s : ConnectionPool} (h : PoolReachable m s) :
    PoolInv m s := by
  induction h with
  | init => exact pool_inv_init m
  | acquireStep s c s2 _ heq ih => exact pool_inv_acquire ih heq
  | releaseStep s c _ ih => exact pool_inv_release c ih
  | closeStep s _ ih => exact pool_inv_close ih

/-- C5: for every connection pool, at every point in any sequence of
acquire/release calls, the number of connections handed out and not yet
released never exceeds `max_connections`, the total of idle plus in-use
connections never exceeds `max_connections`, and an `acquire` issued on an
open pool when no idle connection exists and `max_connections` are already
in use fails immediately with the resource-exhaustion `RuntimeError`
rather than blocking. -/
theorem C5_pool_bound_and_fail_fast (m : ℕ) (s : ConnectionPool)
    (h : PoolReachable m s) :
    s.usedConnections.length ≤ m ∧
    s.pool.length + s.usedConnections.length ≤ m ∧
    (s.closed = false → s.pool = [] →
      s.usedConnections.length = s.maxConnections →
      pool_acquire s = .exhaustedError s) := by
  obtain ⟨hm, hnd, hlt, hlen⟩ := pool_reachable_inv h
  refine ⟨by omega, hlen, ?_⟩
  intro hcl hpool hfull
  simp [pool_acquire, hcl, hpool, hfull]

/-- Witness for C5 at a concrete reachable state: from a fresh pool with
`max_connections = 2`, two acquires lead to the state with both
connections in use, where the bound holds and the third acquire fails
fast. -/
theorem C5_pool_bound_and_fail_fast_witness :
    (⟨2, [], [0, 1], 2, false⟩ : ConnectionPool).usedConnections.length ≤ 2 ∧
    pool_acquire ⟨2, [], [0, 1], 2, false⟩ =
      .exhaustedError ⟨2, [], [0, 1], 2, false⟩ := by
  have hreach : PoolReachable 2 (⟨2, [], [0, 1], 2, false⟩ : ConnectionPool) :=
    PoolReachable.acquireStep ⟨2, [], [0], 1, false⟩ 1 ⟨2, [], [0, 1], 2, false⟩
      (PoolReachable.acquireStep ⟨2, [], [], 0, false⟩ 0 ⟨2, [], [0], 1, false⟩
        PoolReachable.init (by decide))
      (by decide)
  have h := C5_pool_bound_and_fail_fast 2 _ hreach
  exact ⟨h.1, h.2.2 rfl rfl rfl⟩

/-- C1 counterexample.  Five low-confidence failures at time 0 open the
breaker; at time 301 (past the 300s timeout) the allow-check moves it to
half-open and a high-confidence action records one success; the next
low-confidence failure at time 302 — a failure while half-open — leaves
the breaker half-open with its success count still 1, instead of
returning it to open with the success count reset to 0 as the claim
states; and the allow-check keeps allowing every later request rather
than exactly one probe. -/
theorem C1_circuit_breaker_counterexample :
    runCircuitBreaker [(0, 0), (0, 0), (0, 0), (0, 0), (0, 0), (301, 1)]
      = some ⟨5, 1, .halfOpen, some 0, 300⟩ ∧
    runCircuitBreaker [(0, 0), (0, 0), (0, 0), (0, 0), (0, 0), (301, 1), (302, 0)]
      = some ⟨6, 1, .halfOpen, some 0, 300⟩ ∧
    (is_circuit_breaker_open (some ⟨6, 1, .halfOpen, some 0, 300⟩) 302).fst = false ∧
    (is_circuit_breaker_open (some ⟨6, 1, .halfOpen, some 0, 300⟩) 303).fst = false := by
  have h1 : circuit_breaker_step none 0 0 = (false, some ⟨1, 0, .closed, none, 300⟩) := by
    simp [circuit_breaker_step, is_circuit_breaker_open, update_circuit_breaker,
      defaultCircuitBreaker]
  have h2 : circuit_breaker_step (some ⟨1, 0, .closed, none, 300⟩) 0 0
      = (false, some ⟨2, 0, .closed, none, 300⟩) := by
    simp [circuit_breaker_step, is_circuit_breaker_open, update_circuit_breaker]
  have h3 : circuit_breaker_step (some ⟨2, 0, .closed, none, 300⟩) 0 0
      = (false, some ⟨3, 0, .closed, none, 300⟩) := by
    simp [circuit_breaker_step, is_circuit_breaker_open, update_circuit_breaker]
  have h4 : circuit_breaker_step (some ⟨3, 0, .closed, none, 300⟩) 0 0
      = (false, some ⟨4, 0, .closed, none, 300⟩) := by
    simp [circuit_breaker_step, is_circuit_breaker_open, update_circuit_breaker]
  have h5 : circuit_breaker_step (some ⟨4, 0, .closed, none, 300⟩) 0 0
      = (false, some ⟨5, 0, .opened, some 0, 300⟩) := by
    simp [circuit_breaker_step, is_circuit_breaker_open, update_circuit_breaker]
  have h6 : circuit_breaker_step (some ⟨5, 0, .opened, some 0, 300⟩) 301 1
      = (false, some ⟨5, 1, .halfOpen, some 0, 300⟩) := by
    simp [circuit_breaker_step, is_circuit_breaker_open, update_circuit_breaker]
    norm_num
  have h7 : circuit_breaker_step (some ⟨5, 1, .halfOpen, some 0, 300⟩) 302 0
      = (false, some ⟨6, 1, .halfOpen, some 0, 300⟩) := by
    simp [circuit_breaker_step, is_circuit_breaker_open, update_circuit_breaker]
  refine ⟨?_, ?_, ?_, ?_⟩
  · simp [runCircuitBreaker, h1, h2, h3, h4, h5, h6]
  · simp [runCircuitBreaker, h1, h2, h3, h4, h5, h6, h7]
  · simp [is_circuit_breaker_open]
  · simp [is_circuit_breaker_open]

/-- C1 (amended): the breaker opens at the fifth low-confidence failure
while closed, stamping the opening time; while open, the allow-check
consulted before handling blocks the request (no further work, no breaker
update) until the timeout has elapsed since the breaker opened; past the
timeout it moves to half-open and allows every subsequent request (not
just one probe); a failure while half-open leaves it half-open with the
success count untouched (it cannot reopen without first closing); and the
third cumulative high-confidence success closes it, resetting the failure
count. -/
theorem C1_circuit_breaker_amended (cb : CircuitBreakerState) (rate now t0 : ℚ) :
    (cb.phase = .closed → rate < 3 / 10 → 4 ≤ cb.failureCount →
      (update_circuit_breaker (some cb) rate now).phase = .opened ∧
      (update_circuit_breaker (some cb) rate now).openedAt = some now) ∧
    (cb.phase = .opened → cb.openedAt = some t0 → now - t0 ≤ cb.timeout →
      circuit_breaker_step (some cb) now rate = (true, some cb)) ∧
    (cb.phase = .opened → cb.openedAt = some t0 → cb.timeout < now - t0 →
      is_circuit_breaker_open (some cb) now
        = (false, some { cb with phase := .halfOpen })) ∧
    (cb.phase = .halfOpen → (is_circuit_breaker_open (some cb) now).fst = false) ∧
    (cb.phase = .halfOpen → rate < 3 / 10 →
      (update_circuit_breaker (some cb) rate now).phase = .halfOpen ∧
      (update_circuit_breaker (some cb) rate now).successCount = cb.successCount) ∧
    (7 / 10 < rate → 2 ≤ cb.successCount →
      (update_circuit_breaker (some cb) rate now).phase = .closed ∧
      (update_circuit_breaker (some cb) rate now).failureCount = 0) := by
  refine ⟨?_, ?_, ?_, ?_, ?_, ?_⟩
  · intro hph hrate hfc
    have hcond : 5 ≤ cb.failureCount + 1 ∧ cb.phase = CBPhase.closed := ⟨by omega, hph⟩
    simp [update_circuit_breaker, if_pos hrate, hcond]
  · intro hph hopened htime
    have hnotpast : ¬ cb.timeout < now - t0 := by linarith
    simp [circuit_breaker_step, is_circuit_breaker_open, hph, hopened, hnotpast]
  · intro hph hopened hpast
    rw [is_circuit_breaker_open]
    rw [if_neg (by simp [hph]), if_pos (by simpa [hopened] using hpast)]
  · intro hph
    simp [is_circuit_breaker_open, hph]
  · intro hph hrate
    have hcond : ¬ (5 ≤ cb.failureCount + 1 ∧ cb.phase = CBPhase.closed) := by
      simp [hph]
    simp [update_circuit_breaker, if_pos hrate, hcond, hph]
  · intro hrate hsc
    have hnotfail : ¬ rate < 3 / 10 := by linarith
    have hcond : 3 ≤ cb.successCount + 1 := by omega
    simp [update_circuit_breaker, hnotfail, if_pos hrate, hcond]

/-- Witness for C1 (amended) at concrete breaker states: a fifth failure
opens the breaker at time 7; at time 100 (within the timeout) the step is
blocked; and a failure at time 400 on a half-open breaker with one
recorded success leaves the success count at 1. -/
theorem C1_circuit_breaker_amended_witness :
    (update_circuit_breaker (some ⟨4, 0, .closed, none, 300⟩) 0 7).phase = .opened ∧
    circuit_breaker_step (some ⟨5, 0, .opened, some 7, 300⟩) 100 0
      = (true, some ⟨5, 0, .opened, some 7, 300⟩) ∧
    (update_circuit_breaker (some ⟨5, 1, .halfOpen, some 7, 300⟩) 0 400).successCount = 1 := by
  refine ⟨?_, ?_, ?_⟩
  · exact ((C1_circuit_breaker_amended ⟨4, 0, .closed, none, 300⟩ 0 7 0).1 rfl
      (by norm_num) (by norm_num)).1
  · exact (C1_circuit_breaker_amended ⟨5, 0, .opened, some 7, 300⟩ 0 100 7).2.1 rfl rfl
      (by norm_num)
  · exact ((C1_circuit_breaker_amended ⟨5, 1, .halfOpen, some 7, 300⟩ 0 400 0).2.2.2.2.1 rfl
      (by norm_num)).2

theorem tracking_success_eq (metrics : List (String × ToolPerformance))
    (toolName serverName : String) (o : ExecOutcome) (et nw : ℚ) :
    (execute_tool_with_tracking metrics toolName serverName o et nw).fst.success
      = !o.failed := by
  cases o <;> simp [execute_tool_with_tracking, ExecOutcome.failed]

theorem fallback_loop_all_fail (params : List (String × PyVal))
    (execf : String → String → List (String × PyVal) → ExecOutcome)
    (times : ℕ → ℚ × ℚ) (primaryResp : NormalizedResponse)
    (hfail : ∀ t s, (execf t s params).failed = true) :
    ∀ (fbs : List String) (r : RegistryState) (idx : ℕ),
      (fallback_loop r params execf times primaryResp fbs idx).fst = primaryResp := by
  intro fbs
  induction fbs with
  | nil => intro r idx; rfl
  | cons fb rest ih =>
      intro r idx
      rw [fallback_loop]
      cases hfb : find_best_server_for_tool r fb with
      | none => exact ih r idx
      | some sel =>
          obtain ⟨fbTool, fbServer⟩ := sel
          have hsucc : (execute_tool_with_tracking r.performanceMetrics fbTool fbServer
              (execf fbTool fbServer params) (times idx).fst (times idx).snd).fst.success
              = false := by
            rw [tracking_success_eq, hfail]
            rfl
          simp only [hsucc]
          simp only [Bool.false_eq_true, if_false]
          exact ih _ (idx + 1)

/-- C2 (amended): for every intent whose selected primary tool fails and
whose fallback chain is then walked without any fallback attempt
succeeding, `execute_with_fallback` returns the failure produced by the
*primary* (first) attempt; the failures of the fallback attempts are
discarded. -/
theorem C2_fallback_returns_primary_failure (r : RegistryState) (intent : String)
    (params : List (String × PyVal))
    (execf : String → String → List (String × PyVal) → ExecOutcome)
    (times : ℕ → ℚ × ℚ) (toolName serverName : String)
    (hsel : select_optimal_tool r intent = some (toolName, serverName))
    (hfail : ∀ t s, (execf t s params).failed = true) :
    (execute_with_fallback r intent params execf times).fst
      = (execute_tool_with_tracking r.performanceMetrics toolName serverName
          (execf toolName serverName params) (times 0).fst (times 0).snd).fst := by
  rw [execute_with_fallback, hsel]
  have hsucc : (execute_tool_with_tracking r.performanceMetrics toolName serverName
      (execf toolName serverName params) (times 0).fst (times 0).snd).fst.success
      = false := by
    rw [tracking_success_eq, hfail]
    rfl
  simp only [hsucc, Bool.false_eq_true, if_false]
  cases hchain : lookupKey r.fallbackChains toolName with
  | none => rfl
  | some chain =>
      exact fallback_loop_all_fail params execf times _ hfail chain.fallbacks _ 1

/-- C2 counterexample.  The primary attempt fails with `"E1"`; the
fallback `"search_jobs"` is then attempted on `"srv2"` and fails with
`"E2"` (visible in its failure count), making it the last attempt made;
yet `execute_with_fallback` returns the error `"E1"` of the first
attempt, not the last failure `"E2"` the claim requires. -/
theorem C2_fallback_counterexample :
    (execute_with_fallback c2Registry "list_jobs" [] c2Exec (fun _ => (0, 0))).fst.error
      = some "E1" ∧
    (execute_with_fallback c2Registry "list_jobs" [] c2Exec (fun _ => (0, 0))).fst.error
      ≠ some "E2" ∧
    (lookupKey (execute_with_fallback c2Registry "list_jobs" [] c2Exec
        (fun _ => (0, 0))).snd.performanceMetrics "srv2:search_jobs").map
        ToolPerformance.failureCount = some 1 := by
  have h1 : (execute_with_fallback c2Registry "list_jobs" [] c2Exec (fun _ => (0, 0))).fst.error
      = some "E1" := rfl
  exact ⟨h1, by rw [h1]; simp, rfl⟩

/-- Witness for C2 (amended) on the concrete scenario: with every attempt
failing, the returned response is the primary attempt's. -/
theorem C2_fallback_returns_primary_failure_witness :
    (execute_with_fallback c2Registry "list_jobs" [] c2Exec (fun _ => (0, 0))).fst
      = (execute_tool_with_tracking c2Registry.performanceMetrics "list_jobs" "srv"
          (c2Exec "list_jobs" "srv" []) ((fun (_ : ℕ) => ((0 : ℚ), (0 : ℚ))) 0).fst
          ((fun (_ : ℕ) => ((0 : ℚ), (0 : ℚ))) 0).snd).fst :=
  C2_fallback_returns_primary_failure c2Registry "list_jobs" [] c2Exec (fun _ => (0, 0))
    "list_jobs" "srv" rfl
    (by
      intro t s
      by_cases h : t = "list_jobs" <;> simp [c2Exec, h, ExecOutcome.failed])

theorem lookupKey_setKey_self {α : Type} (l : List (String × α)) (k : String) (v : α) :
    lookupKey (setKey l k v) k = some v := by
  induction l with
  | nil => simp [setKey, lookupKey]
  | cons p rest ih =>
      by_cases h : p.fst = k
      · simp [setKey, lookupKey, h]
      · have hb : (p.fst == k) = false := by simpa using h
        simp [setKey, lookupKey, hb, ih]

theorem lookupKey_setKey_other {α : Type} (l : List (String × α)) (k k2 : String) (v : α)
    (h : k2 ≠ k) : lookupKey (setKey l k v) k2 = lookupKey l k2 := by
  have hkk2 : (k == k2) = false := beq_eq_false_iff_ne.mpr (fun he => h he.symm)
  induction l with
  | nil => simp [setKey, lookupKey, hkk2]
  | cons p rest ih =>
      by_cases hp : p.fst = k
      · have hb : (p.fst == k) = true := beq_iff_eq.mpr hp
        have hb2 : (p.fst == k2) = false := by rw [hp]; exact hkk2
        simp [setKey, lookupKey, hb, hb2, hkk2]
      · have hbp : (p.fst == k) = false := beq_eq_false_iff_ne.mpr hp
        simp only [setKey, hbp, Bool.false_eq_true, if_false]
        simp [lookupKey, ih]

/-- C9 (amended): after a recorded execution outcome for a (server, tool)
pair, the success and failure counts are updated according to the
outcome, and the stored error sample never exceeds 10 entries; the
running average latency, however, is updated by the incremental-mean
formula `avg' = (avg*(n-1) + latency)/n` (with `n` the total of success
and failure counts after the update) only on a *successful* outcome — on
a failure the average is left unchanged, even though the failure still
enlarges the denominator used by later successes. -/
theorem C9_performance_tracking_amended (p : ToolPerformance)
    (response : NormalizedResponse) (et nw : ℚ) :
    (response.success = true →
      (update_tool_performance p response et nw).successCount = p.successCount + 1 ∧
      (update_tool_performance p response et nw).failureCount = p.failureCount ∧
      (update_tool_performance p response et nw).avgResponseTimeMs
        = (p.avgResponseTimeMs * (((p.successCount + 1 + p.failureCount : ℕ) : ℚ) - 1) + et)
            / ((p.successCount + 1 + p.failureCount : ℕ) : ℚ)) ∧
    (response.success = false →
      (update_tool_performance p response et nw).failureCount = p.failureCount + 1 ∧
      (update_tool_performance p response et nw).successCount = p.successCount ∧
      (update_tool_performance p response et nw).avgResponseTimeMs = p.avgResponseTimeMs) ∧
    (p.errorPatterns.length ≤ 10 →
      (update_tool_performance p response et nw).errorPatterns.length ≤ 10) := by
  refine ⟨?_, ?_, ?_⟩
  · intro hs
    simp [update_tool_performance, hs]
  · intro hs
    simp [update_tool_performance, hs]
  · intro hbound
    by_cases hs : response.success
    · simpa [update_tool_performance, hs] using hbound
    · simp only [update_tool_performance, Bool.not_eq_true] at hs ⊢
      rw [hs]
      simp only [Bool.false_eq_true, if_false]
      cases herr : response.error with
      | none => simpa using hbound
      | some e =>
          by_cases hcond : e ≠ "" ∧ p.errorPatterns.length < 10 ∧ e ∉ p.errorPatterns
          · simp only [if_pos hcond, List.length_append, List.length_singleton]
            omega
          · simpa [if_neg hcond] using hbound

/-- Witness for C9 (amended) on a fresh performance entry: a success with
latency 5 at time 3 sets the count to 1 and the average to 5; the failure
branch and the sample bound are instantiated on the same entry. -/
theorem C9_performance_tracking_amended_witness :
    (update_tool_performance { toolName := "t", serverName := "s" }
        { success := true } 5 3).successCount = 1 ∧
    (update_tool_performance { toolName := "t", serverName := "s" }
        { success := true } 5 3).avgResponseTimeMs = 5 ∧
    (update_tool_performance { toolName := "t", serverName := "s" }
        { success := false } 5 3).failureCount = 1 ∧
    (update_tool_performance { toolName := "t", serverName := "s" }
        { success := false } 5 3).errorPatterns.length ≤ 10 := by
  have hsucc := (C9_performance_tracking_amended
    { toolName := "t", serverName := "s" } { success := true } 5 3).1 rfl
  have hfail := (C9_performance_tracking_amended
    { toolName := "t", serverName := "s" } { success := false } 5 3).2.1 rfl
  have hbound := (C9_performance_tracking_amended
    { toolName := "t", serverName := "s" } { success := false } 5 3).2.2 (by simp)
  refine ⟨hsucc.1, ?_, hfail.1, hbound⟩
  rw [hsucc.2.2]
  norm_num

/-- C9 counterexample.  On a fresh entry a *failure* outcome with latency
7 leaves the running average at 0, while the claim's incremental-mean
formula over all recorded executions (`n = 1` here) demands
`(0*(1-1)+7)/1 = 7`: the failure's latency is never folded into the
average although it is a recorded execution. -/
theorem C9_incremental_mean_counterexample :
    (update_tool_performance { toolName := "t", serverName := "s" }
        { success := false } 7 0).avgResponseTimeMs = 0 ∧
    (update_tool_performance { toolName := "t", serverName := "s" }
        { success := false } 7 0).failureCount = 1 ∧
    ((0 : ℚ) * (((1 : ℕ) : ℚ) - 1) + 7) / ((1 : ℕ) : ℚ) = 7 := by
  refine ⟨?_, ?_, by norm_num⟩
  · simp [update_tool_performance]
  · simp [update_tool_performance]

theorem discover_frame (c : ClientState) (srv : MCPServerConfig)
    (outcome : Except String (List StandardizedSchema)) (k : String)
    (h : k ≠ srv.name) :
    lookupKey ((discover_server_capabilities c srv outcome).snd).capabilities k
        = lookupKey c.capabilities k ∧
    lookupKey ((discover_server_capabilities c srv outcome).snd).serverHealth k
        = lookupKey c.serverHealth k := by
  cases outcome with
  | error msg =>
      exact ⟨rfl, by simp [discover_server_capabilities, lookupKey_setKey_other _ _ _ _ h]⟩
  | ok tools =>
      constructor
      · simp [discover_server_capabilities, lookupKey_setKey_other _ _ _ _ h]
      · simp [discover_server_capabilities, lookupKey_setKey_other _ _ _ _ h]

theorem discover_self_ok (c : ClientState) (srv : MCPServerConfig)
    (tools : List StandardizedSchema) :
    lookupKey ((discover_server_capabilities c srv (.ok tools)).snd).capabilities srv.name
        = some ⟨srv.name, "unknown", tools⟩ ∧
    lookupKey ((discover_server_capabilities c srv (.ok tools)).snd).serverHealth srv.name
        = some true := by
  constructor
  · simp [discover_server_capabilities, lookupKey_setKey_self]
  · simp [discover_server_capabilities, lookupKey_setKey_self]

theorem discover_self_error (c : ClientState) (srv : MCPServerConfig) (msg : String) :
    (discover_server_capabilities c srv (.error msg)).fst = ⟨srv.name, "unknown", []⟩ ∧
    ((discover_server_capabilities c srv (.error msg)).snd).capabilities = c.capabilities ∧
    lookupKey ((discover_server_capabilities c srv (.error msg)).snd).serverHealth srv.name
        = some false := by
  exact ⟨rfl, rfl, by simp [discover_server_capabilities, lookupKey_setKey_self]⟩

theorem discover_fold_frame
    (outcomes : String → Except String (List StandardizedSchema)) (k : String) :
    ∀ (l : List MCPServerConfig), (∀ srv ∈ l, k ≠ srv.name) → ∀ (c : ClientState),
      lookupKey (l.foldl
          (fun st srv => (discover_server_capabilities st srv (outcomes srv.name)).snd)
          c).capabilities k = lookupKey c.capabilities k ∧
      lookupKey (l.foldl
          (fun st srv => (discover_server_capabilities st srv (outcomes srv.name)).snd)
          c).serverHealth k = lookupKey c.serverHealth k := by
  intro l
  induction l with
  | nil => intro _ c; exact ⟨rfl, rfl⟩
  | cons hd tl ih =>
      intro hnotin c
      have hname : k ≠ hd.name := hnotin hd (List.mem_cons_self hd tl)
      have hrest : ∀ srv ∈ tl, k ≠ srv.name := fun srv hsrv =>
        hnotin srv (List.mem_cons_of_mem hd hsrv)
      simp only [List.foldl_cons]
      constructor
      · rw [(ih hrest _).1]
        exact (discover_frame c hd (outcomes hd.name) k hname).1
      · rw [(ih hrest _).2]
        exact (discover_frame c hd (outcomes hd.name) k hname).2

theorem discover_fold_result
    (outcomes : String → Except String (List StandardizedSchema)) :
    ∀ (l : List MCPServerConfig) (c : ClientState) (s : MCPServerConfig),
      s ∈ l → (l.map MCPServerConfig.name).Nodup →
      (∀ tools, outcomes s.name = .ok tools →
        lookupKey (l.foldl
            (fun st srv => (discover_server_capabilities st srv (outcomes srv.name)).snd)
            c).capabilities s.name = some ⟨s.name, "unknown", tools⟩ ∧
        lookupKey (l.foldl
            (fun st srv => (discover_server_capabilities st srv (outcomes srv.name)).snd)
            c).serverHealth s.name = some true) ∧
      (∀ msg, outcomes s.name = .error msg →
        lookupKey (l.foldl
            (fun st srv => (discover_server_capabilities st srv (outcomes srv.name)).snd)
            c).capabilities s.name = lookupKey c.capabilities s.name ∧
        lookupKey (l.foldl
            (fun st srv => (discover_server_capabilities st srv (outcomes srv.name)).snd)
            c).serverHealth s.name = some false) := by
  intro l
  induction l with
  | nil => intro c s hmem; exact absurd hmem (List.not_mem_nil s)
  | cons hd tl ih =>
      intro c s hmem hnodup
      simp only [List.map_cons, List.nodup_cons] at hnodup
      obtain ⟨hhd, htl⟩ := hnodup
      rcases List.mem_cons.mp hmem with heq | hmemtl
      · subst heq
        have hnotin : ∀ srv ∈ tl, s.name ≠ srv.name := by
          intro srv hsrv hcontra
          exact hhd (hcontra ▸ (List.mem_map_of_mem MCPServerConfig.name hsrv))
        have hframe := discover_fold_frame outcomes s.name tl hnotin
        constructor
        · intro tools hok
          simp only [List.foldl_cons, hok]
          constructor
          · rw [(hframe _).1]
            exact (discover_self_ok c s tools).1
          · rw [(hframe _).2]
            exact (discover_self_ok c s tools).2
        · intro msg herr
          simp only [List.foldl_cons, herr]
          constructor
          · rw [(hframe _).1, (discover_self_error c s msg).2.1]
          · rw [(hframe _).2]
            exact (discover_self_error c s msg).2.2
      · have hname : s.name ≠ hd.name := by
          intro hcontra
          exact hhd (hcontra ▸ (List.mem_map_of_mem MCPServerConfig.name hmemtl))
        have hrec := ih ((discover_server_capabilities c hd (outcomes hd.name)).snd)
          s hmemtl htl
        simp only [List.foldl_cons]
        refine ⟨hrec.1, ?_⟩
        intro msg herr
        refine ⟨?_, (hrec.2 msg herr).2⟩
        rw [(hrec.2 msg herr).1]
        exact (discover_frame c hd (outcomes hd.name) s.name hname).1

/-- C7: for every set of enabled servers discovered together, a discovery
failure on one server does not fail or abort discovery of the others:
a failing server is marked unhealthy, its per-server discovery returns an
empty capability set, and it gains no capability entry, while every
reachable enabled server's full tool list is recorded and returned in the
capability map. -/
theorem C7_discovery_isolation (servers : List MCPServerConfig)
    (outcomes : String → Except String (List StandardizedSchema))
    (s : MCPServerConfig)
    (hnodup : (servers.map MCPServerConfig.name).Nodup)
    (hmem : s ∈ servers) (hen : s.enabled = true) :
    (∀ tools, outcomes s.name = .ok tools →
      lookupKey (discover_all_servers { servers := servers } outcomes).fst s.name
        = some ⟨s.name, "unknown", tools⟩ ∧
      lookupKey ((discover_all_servers { servers := servers } outcomes).snd).serverHealth
        s.name = some true) ∧
    (∀ msg, outcomes s.name = .error msg →
      lookupKey (discover_all_servers { servers := servers } outcomes).fst s.name = none ∧
      lookupKey ((discover_all_servers { servers := servers } outcomes).snd).serverHealth
        s.name = some false ∧
      (discover_server_capabilities { servers := servers } s (outcomes s.name)).fst
        = ⟨s.name, "unknown", []⟩) := by
  have hmemf : s ∈ servers.filter (fun srv => srv.enabled) :=
    List.mem_filter.mpr ⟨hmem, hen⟩
  have hnodupf : ((servers.filter (fun srv => srv.enabled)).map MCPServerConfig.name).Nodup :=
    (List.Sublist.map MCPServerConfig.name (List.filter_sublist servers)).nodup hnodup
  have hfold := discover_fold_result outcomes (servers.filter (fun srv => srv.enabled))
    { servers := servers } s hmemf hnodupf
  constructor
  · intro tools hok
    have h := hfold.1 tools hok
    simp only [discover_all_servers]
    exact h
  · intro msg herr
    have h := hfold.2 msg herr
    refine ⟨?_, ?_, ?_⟩
    · simp only [discover_all_servers]
      exact h.1
    · simp only [discover_all_servers]
      exact h.2
    · rw [herr]
      exact (discover_self_error { servers := servers } s msg).1

/-- Witness for C7 on the concrete two-server scenario: discovering A and
B together still records A's full capability set, while B is marked
unhealthy, gains no capability entry, and its per-server discovery
returns the empty capability set. -/
theorem C7_discovery_isolation_witness :
    lookupKey (discover_all_servers { servers := [c7ServerA, c7ServerB] } c7Outcomes).fst "A"
      = some ⟨"A", "unknown", [c7Tool]⟩ ∧
    lookupKey ((discover_all_servers
      { servers := [c7ServerA, c7ServerB] } c7Outcomes).snd).serverHealth "A" = some true ∧
    lookupKey (discover_all_servers { servers := [c7ServerA, c7ServerB] } c7Outcomes).fst "B"
      = none ∧
    lookupKey ((discover_all_servers
      { servers := [c7ServerA, c7ServerB] } c7Outcomes).snd).serverHealth "B" = some false ∧
    (discover_server_capabilities { servers := [c7ServerA, c7ServerB] } c7ServerB
      (c7Outcomes "B")).fst = ⟨"B", "unknown", []⟩ := by
  have hA := C7_discovery_isolation [c7ServerA, c7ServerB] c7Outcomes c7ServerA
    (by simp [c7ServerA, c7ServerB]) (by simp) rfl
  have hB := C7_discovery_isolation [c7ServerA, c7ServerB] c7Outcomes c7ServerB
    (by simp [c7ServerA, c7ServerB]) (by simp) rfl
  have hAok := hA.1 [c7Tool] rfl
  have hBerr := hB.2 "connection refused" rfl
  exact ⟨hAok.1, hAok.2, hBerr.1, hBerr.2.1, hBerr.2.2⟩

/-- C4: evaluation of the parameter-coercion code at the failing input of
the code bug.  A parameter declared `boolean` supplied the integer `1`
(not coercible per the converter's own taxonomy) neither raises nor
produces a parameter error: the `boolean` branch of
`_convert_parameter_type` has no final `else`, so control falls off the
function and Python `None` is silently delivered to the transport in
place of the value.  The well-behaved cases around it are evaluated for
contrast: the string `"42"` for an `integer` parameter is delivered as
the integer 42, and a missing required parameter is a parameter error
naming the field, produced before any transport call. -/
theorem C4_boolean_coercion_code_bug :
    convert_parameter_type (.pyInt 1) "boolean" = .ok .pyNone ∧
    validate_parameters "set_flag"
        (some { name := "set_flag", description := "",
                parameters := [("flag", ⟨some "boolean"⟩)], required := ["flag"] })
        [("flag", .pyInt 1)]
      = ⟨true, [], [("flag", .pyNone)]⟩ ∧
    convert_parameter_type (.pyStr "42") "integer" = .ok (.pyInt 42) ∧
    validate_parameters "get_build_status"
        (some { name := "get_build_status", description := "",
                parameters := [("build_number", ⟨some "integer"⟩)],
                required := ["build_number"] })
        []
      = ⟨false, ["Required parameter 'build_number' is missing"], []⟩ := by
  refine ⟨rfl, rfl, rfl, rfl⟩

theorem candidatesFor_eq_filterMap (r : RegistryState) (toolName : String) :
    candidatesFor r toolName = r.serverTools.filterMap
      (fun entry =>
        if toolName ∈ entry.snd then
          (lookupKey r.performanceMetrics (entry.fst ++ ":" ++ toolName)).map
            (fun p => ⟨entry.fst, toolName, scoreOf p, p.lastSuccess⟩)
        else none) := by
  have haux : ∀ (sts : List (String × List String)) (acc : List Candidate),
      sts.foldl
        (fun acc2 entry =>
          if toolName ∈ entry.snd then
            match lookupKey r.performanceMetrics (entry.fst ++ ":" ++ toolName) with
            | some p => acc2 ++ [⟨entry.fst, toolName, scoreOf p, p.lastSuccess⟩]
            | none => acc2
          else acc2)
        acc
      = acc ++ sts.filterMap
          (fun entry =>
            if toolName ∈ entry.snd then
              (lookupKey r.performanceMetrics (entry.fst ++ ":" ++ toolName)).map
                (fun p => ⟨entry.fst, toolName, scoreOf p, p.lastSuccess⟩)
            else none) := by
    intro sts
    induction sts with
    | nil => intro acc; simp
    | cons e es ih =>
        intro acc
        simp only [List.foldl_cons, List.filterMap_cons]
        by_cases hm : toolName ∈ e.snd
        · cases hp : lookupKey r.performanceMetrics (e.fst ++ ":" ++ toolName) with
          | some p => simp [hm, hp, ih]
          | none => simp [hm, hp, ih]
        · simp [hm, ih]
  exact haux r.serverTools []

theorem candidateGe_refl (a : Candidate) : candidateGe a a :=
  Or.inr ⟨rfl, le_refl _⟩

theorem candidatesFor_char (r : RegistryState) (toolName : String) (cand : Candidate) :
    cand ∈ candidatesFor r toolName ↔
      ∃ entry ∈ r.serverTools, toolName ∈ entry.snd ∧
        ∃ p, lookupKey r.performanceMetrics (entry.fst ++ ":" ++ toolName) = some p ∧
          cand = ⟨entry.fst, toolName, scoreOf p, p.lastSuccess⟩ := by
  rw [candidatesFor_eq_filterMap, List.mem_filterMap]
  constructor
  · rintro ⟨entry, hent, hf⟩
    by_cases hm : toolName ∈ entry.snd
    · rw [if_pos hm] at hf
      cases hp : lookupKey r.performanceMetrics (entry.fst ++ ":" ++ toolName) with
      | some p =>
          rw [hp] at hf
          refine ⟨entry, hent, hm, p, hp, ?_⟩
          have : some (Candidate.mk entry.fst toolName (scoreOf p) p.lastSuccess)
              = some cand := hf
          exact (Option.some.inj this).symm
      | none =>
          rw [hp] at hf
          exact Option.noConfusion hf
    · rw [if_neg hm] at hf
      exact Option.noConfusion hf
  · rintro ⟨entry, hent, hm, p, hp, hcand⟩
    refine ⟨entry, hent, ?_⟩
    rw [if_pos hm, hp]
    exact congrArg some hcand.symm

theorem find_best_spec (r : RegistryState) (toolName tn sn : String)
    (h : find_best_server_for_tool r toolName = some (tn, sn)) :
    ∃ best ∈ candidatesFor r toolName, best.toolName = tn ∧ best.serverName = sn ∧
      ∀ cand ∈ candidatesFor r toolName, candidateGe best cand := by
  unfold find_best_server_for_tool at h
  cases hs : sortCandidatesDesc (candidatesFor r toolName) with
  | nil => rw [hs] at h; exact absurd h (by simp)
  | cons best rest =>
      rw [hs] at h
      have hpair := Option.some.inj h
      have hmem : best ∈ candidatesFor r toolName := by
        have hin : best ∈ sortCandidatesDesc (candidatesFor r toolName) := by
          rw [hs]; exact List.mem_cons_self best rest
        exact (List.perm_insertionSort candidateGe (candidatesFor r toolName)).mem_iff.mp hin
      refine ⟨best, hmem, ?_, ?_, ?_⟩
      · exact congrArg Prod.fst hpair
      · exact congrArg Prod.snd hpair
      · intro cand hcand
        have hsorted : (sortCandidatesDesc (candidatesFor r toolName)).Sorted candidateGe :=
          List.sorted_insertionSort candidateGe (candidatesFor r toolName)
        rw [hs] at hsorted
        have hin2 : cand ∈ sortCandidatesDesc (candidatesFor r toolName) :=
          (List.perm_insertionSort candidateGe (candidatesFor r toolName)).symm.mem_iff.mp hcand
        rw [hs] at hin2
        rcases List.mem_cons.mp hin2 with heq | hrest
        · rw [heq]; exact candidateGe_refl best
        · exact List.rel_of_sorted_cons hsorted cand hrest

theorem setKey_keys_subset {α : Type} (l : List (String × α)) (k k2 : String) (v : α)
    (h : k2 ∈ (setKey l k v).map Prod.fst) : k2 ∈ l.map Prod.fst ∨ k2 = k := by
  induction l with
  | nil =>
      simp [setKey] at h
      exact Or.inr h
  | cons p rest ih =>
      by_cases hp : p.fst = k
      · have hb : (p.fst == k) = true := beq_iff_eq.mpr hp
        simp only [setKey, hb, if_true, List.map_cons, List.mem_cons] at h
        rcases h with h | h
        · exact Or.inr h
        · exact Or.inl (by simp only [List.map_cons, List.mem_cons]; exact Or.inr h)
      · have hb : (p.fst == k) = false := beq_eq_false_iff_ne.mpr hp
        simp only [setKey, hb, Bool.false_eq_true, if_false, List.map_cons, List.mem_cons] at h
        rcases h with h | h
        · exact Or.inl (by simp [h])
        · rcases ih h with h2 | h2
          · exact Or.inl (by simp [List.mem_cons]; right; simpa using h2)
          · exact Or.inr h2

theorem addServerTool_keys (l : List (String × List String)) (server tool k : String)
    (h : k ∈ (addServerTool l server tool).map Prod.fst) :
    k ∈ l.map Prod.fst ∨ k = server := by
  unfold addServerTool at h
  cases hl : lookupKey l server with
  | none =>
      rw [hl] at h
      simp only [List.map_append, List.map_cons, List.map_nil, List.mem_append,
        List.mem_cons, List.not_mem_nil, or_false] at h
      rcases h with h | h
      · exact Or.inl h
      · exact Or.inr h
  | some tools =>
      rw [hl] at h
      have h2 : k ∈ (if tool ∈ tools then l
          else setKey l server (tools ++ [tool])).map Prod.fst := h
      by_cases hm : tool ∈ tools
      · rw [if_pos hm] at h2
        exact Or.inl h2
      · rw [if_neg hm] at h2
        exact setKey_keys_subset l server k _ h2

theorem discover_tools_inner_keys (serverName : String) :
    ∀ (tools : List StandardizedSchema) (st : RegistryState) (k : String),
      k ∈ ((tools.foldl
          (fun st2 t =>
            let key := serverName ++ ":" ++ t.name
            { st2 with
                availableTools := setKey st2.availableTools key t,
                serverTools := addServerTool st2.serverTools serverName t.name,
                performanceMetrics :=
                  if hasKey st2.performanceMetrics key then st2.performanceMetrics
                  else st2.performanceMetrics
                    ++ [(key, { toolName := t.name, serverName := serverName })] })
          st).serverTools).map Prod.fst →
      k ∈ (st.serverTools).map Prod.fst ∨ k = serverName := by
  intro tools
  induction tools with
  | nil => intro st k h; exact Or.inl h
  | cons t ts ih =>
      intro st k h
      simp only [List.foldl_cons] at h
      rcases ih _ k h with h2 | h2
      · exact addServerTool_keys st.serverTools serverName t.name k h2
      · exact Or.inr h2

theorem discover_tools_keys :
    ∀ (capabilities : List (String × ServerCapabilities)) (r : RegistryState) (k : String),
      k ∈ ((discover_tools r capabilities).serverTools).map Prod.fst →
      k ∈ (r.serverTools).map Prod.fst ∨ ∃ ce ∈ capabilities, ce.fst = k := by
  intro capabilities
  induction capabilities with
  | nil => intro r k h; exact Or.inl h
  | cons ce ces ih =>
      intro r k h
      rw [discover_tools, List.foldl_cons] at h
      rcases ih _ k h with h2 | h2
      · rcases discover_tools_inner_keys ce.fst ce.snd.tools r k h2 with h3 | h3
        · exact Or.inl h3
        · exact Or.inr ⟨ce, List.mem_cons_self ce ces, h3.symm⟩
      · obtain ⟨ce2, hce2, hk⟩ := h2
        exact Or.inr ⟨ce2, List.mem_cons_of_mem ce hce2, hk⟩

theorem discover_caps_provenance
    (outcomes : String → Except String (List StandardizedSchema)) :
    ∀ (l : List MCPServerConfig) (c : ClientState) (k : String),
      k ∈ ((l.foldl
          (fun st srv => (discover_server_capabilities st srv (outcomes srv.name)).snd)
          c).capabilities).map Prod.fst →
      k ∈ (c.capabilities).map Prod.fst ∨
        ∃ srv ∈ l, srv.name = k ∧ ∃ tools, outcomes srv.name = .ok tools := by
  intro l
  induction l with
  | nil => intro c k h; exact Or.inl h
  | cons hd tl ih =>
      intro c k h
      simp only [List.foldl_cons] at h
      rcases ih _ k h with h2 | h2
      · cases ho : outcomes hd.name with
        | error msg =>
            rw [ho] at h2
            exact Or.inl h2
        | ok tools =>
            rw [ho] at h2
            simp only [discover_server_capabilities] at h2
            rcases setKey_keys_subset _ _ _ _ h2 with h3 | h3
            · exact Or.inl h3
            · exact Or.inr ⟨hd, List.mem_cons_self hd tl, h3.symm, tools, ho⟩
      · obtain ⟨srv, hsrv, hk, tools, ho⟩ := h2
        exact Or.inr ⟨srv, List.mem_cons_of_mem hd hsrv, hk, tools, ho⟩

theorem scoreOf_eq_specScore (p : ToolPerformance) :
    scoreOf p = specScore p.successCount p.failureCount p.avgResponseTimeMs := by
  unfold scoreOf specScore successRateOf
  by_cases h : p.successCount + p.failureCount = 0
  · rw [if_pos h, if_neg (by omega)]
  · rw [if_neg h, if_pos (by omega)]

/-- C6: the candidates considered for a tool are exactly the servers that
advertise it in the registry index and carry a performance entry; each is
scored by `successRate*0.7 + (1000/max(avgLatencyMs,1))*0.3` with the
success rate defaulting to 0.5 on an empty history (the embedded score
provably equals the spec's formula); the returned (tool, server) pair is
a candidate whose `(score, last_success)` key is maximal, ties broken by
most-recent success descending — and, the selection being a pure function
of the snapshot, deterministic; and in a registry built by one discovery
round from a fresh state, every indexed server is an enabled configured
server that was discovered healthy. -/
theorem C6_server_selection (r : RegistryState) (toolName tn sn : String)
    (servers : List MCPServerConfig)
    (outcomes : String → Except String (List StandardizedSchema))
    (hsel : find_best_server_for_tool r toolName = some (tn, sn))
    (hnodup : (servers.map MCPServerConfig.name).Nodup) :
    (∀ p : ToolPerformance,
      scoreOf p = specScore p.successCount p.failureCount p.avgResponseTimeMs) ∧
    tn = toolName ∧
    (∃ best ∈ candidatesFor r toolName, best.serverName = sn ∧
      ∀ cand ∈ candidatesFor r toolName, candidateGe best cand) ∧
    (∀ cand, cand ∈ candidatesFor r toolName ↔
      ∃ entry ∈ r.serverTools, toolName ∈ entry.snd ∧
        ∃ p, lookupKey r.performanceMetrics (entry.fst ++ ":" ++ toolName) = some p ∧
          cand = ⟨entry.fst, toolName, scoreOf p, p.lastSuccess⟩) ∧
    (∀ entry ∈ (discover_tools {}
        (discover_all_servers { servers := servers } outcomes).fst).serverTools,
      ∃ srv ∈ servers, srv.name = entry.fst ∧ srv.enabled = true ∧
        lookupKey ((discover_all_servers { servers := servers } outcomes).snd).serverHealth
          entry.fst = some true) := by
  obtain ⟨best, hbm, hbt, hbs, hbmax⟩ := find_best_spec r toolName tn sn hsel
  have htn : tn = toolName := by
    obtain ⟨entry, _, _, p, _, hcand⟩ := (candidatesFor_char r toolName best).mp hbm
    rw [← hbt, hcand]
  refine ⟨scoreOf_eq_specScore, htn, ⟨best, hbm, hbs, hbmax⟩,
    fun cand => candidatesFor_char r toolName cand, ?_⟩
  intro entry hent
  have hk : entry.fst ∈ ((discover_tools {}
      (discover_all_servers { servers := servers } outcomes).fst).serverTools).map Prod.fst :=
    List.mem_map_of_mem Prod.fst hent
  rcases discover_tools_keys _ _ _ hk with hempty | ⟨ce, hce, hk2⟩
  · simp at hempty
  · have hcek : ce.fst ∈ ((discover_all_servers
        { servers := servers } outcomes).fst).map Prod.fst :=
      List.mem_map_of_mem Prod.fst hce
    simp only [discover_all_servers] at hcek
    rcases discover_caps_provenance outcomes _ _ _ hcek with hemp2 | ⟨srv, hsrv, hname, tools, ho⟩
    · simp at hemp2
    · have hmem := List.mem_filter.mp hsrv
      have hnodupf : ((servers.filter (fun s => s.enabled)).map MCPServerConfig.name).Nodup :=
        (List.Sublist.map MCPServerConfig.name (List.filter_sublist servers)).nodup hnodup
      have hhealth := (discover_fold_result outcomes
        (servers.filter (fun s => s.enabled)) { servers := servers }
        srv hsrv hnodupf).1 tools ho
      refine ⟨srv, hmem.1, hname.trans hk2, hmem.2, ?_⟩
      simp only [discover_all_servers]
      rw [← hk2, ← hname]
      exact hhealth.2

/-- Witness for C6 on the one-server registry: selection resolves
`"list_jobs"` to `"srv"` and every conjunct of the selection theorem
holds there. -/
theorem C6_server_selection_witness :
    (∀ p : ToolPerformance,
      scoreOf p = specScore p.successCount p.failureCount p.avgResponseTimeMs) ∧
    "list_jobs" = "list_jobs" ∧
    (∃ best ∈ candidatesFor c6Registry "list_jobs", best.serverName = "srv" ∧
      ∀ cand ∈ candidatesFor c6Registry "list_jobs", candidateGe best cand) ∧
    (∀ cand, cand ∈ candidatesFor c6Registry "list_jobs" ↔
      ∃ entry ∈ c6Registry.serverTools, "list_jobs" ∈ entry.snd ∧
        ∃ p, lookupKey c6Registry.performanceMetrics (entry.fst ++ ":" ++ "list_jobs")
            = some p ∧
          cand = ⟨entry.fst, "list_jobs", scoreOf p, p.lastSuccess⟩) ∧
    (∀ entry ∈ (discover_tools {}
        (discover_all_servers { servers := [c6Server] } c6Outcomes).fst).serverTools,
      ∃ srv ∈ [c6Server], srv.name = entry.fst ∧ srv.enabled = true ∧
        lookupKey ((discover_all_servers
            { servers := [c6Server] } c6Outcomes).snd).serverHealth
          entry.fst = some true) :=
  C6_server_selection c6Registry "list_jobs" "list_jobs" "srv" [c6Server] c6Outcomes rfl
    (by simp)

theorem eraseKey_length_le {α : Type} (l : List (String × α)) (k : String) :
    (eraseKey l k).length ≤ l.length := by
  induction l with
  | nil => simp [eraseKey]
  | cons p rest ih =>
      by_cases h : (p.fst == k) = true
      · simp [eraseKey, h]
      · simp only [eraseKey, h, Bool.false_eq_true, if_false, List.length_cons]
        omega

theorem setKey_length_le {α : Type} (l : List (String × α)) (k : String) (v : α) :
    (setKey l k v).length ≤ l.length + 1 := by
  induction l with
  | nil => simp [setKey]
  | cons p rest ih =>
      by_cases h : (p.fst == k) = true
      · simp [setKey, h]
      · simp only [setKey, h, Bool.false_eq_true, if_false, List.length_cons]
        omega

theorem setKey_length_of_found {α : Type} (l : List (String × α)) (k : String) (v : α)
    (h : hasKey l k = true) : (setKey l k v).length = l.length := by
  induction l with
  | nil => simp [hasKey, lookupKey] at h
  | cons p rest ih =>
      by_cases hp : (p.fst == k) = true
      · simp [setKey, hp]
      · have hrest : hasKey rest k = true := by
          simpa [hasKey, lookupKey, hp] using h
        simp only [setKey, hp, Bool.false_eq_true, if_false, List.length_cons]
        rw [ih hrest]

theorem remove_item_facts (c : IntelligentCache) (k : String) :
    (remove_item c k).maxSize = c.maxSize ∧
    (remove_item c k).maxSizeBytes = c.maxSizeBytes ∧
    (remove_item c k).cache.length ≤ c.cache.length ∧
    (remove_item c k).sizeBytes ≤ c.sizeBytes := by
  cases h : lookupKey c.cache k with
  | none => simp [remove_item, h]
  | some item =>
      have e : remove_item c k
          = { c with
              cache := eraseKey c.cache k,
              accessOrder := c.accessOrder.erase k,
              sizeBytes := c.sizeBytes - item.sizeBytes } := by
        simp [remove_item, h]
      rw [e]
      refine ⟨rfl, rfl, eraseKey_length_le c.cache k, ?_⟩
      show c.sizeBytes - (item.sizeBytes : Int) ≤ c.sizeBytes
      have : (0 : Int) ≤ (item.sizeBytes : Int) := Int.ofNat_nonneg _
      omega

theorem make_room_loop_facts (newSize : ℕ) :
    ∀ (fuel : ℕ) (c : IntelligentCache),
      (make_room_loop newSize fuel c).snd.maxSize = c.maxSize ∧
      (make_room_loop newSize fuel c).snd.maxSizeBytes = c.maxSizeBytes ∧
      (make_room_loop newSize fuel c).snd.cache.length ≤ c.cache.length ∧
      (make_room_loop newSize fuel c).snd.sizeBytes ≤ c.sizeBytes ∧
      ((make_room_loop newSize fuel c).fst = true →
        needsRoom (make_room_loop newSize fuel c).snd newSize = false) := by
  intro fuel
  induction fuel with
  | zero =>
      intro c
      by_cases h : needsRoom c newSize = true
      · simp [make_room_loop, h]
      · simp only [Bool.not_eq_true] at h
        simp [make_room_loop, h]
  | succ fuel ih =>
      intro c
      by_cases h : needsRoom c newSize = true
      · cases horder : c.accessOrder with
        | nil => simp [make_room_loop, h, horder]
        | cons k rest =>
            by_cases hkey : hasKey c.cache k = true
            · have hrec := ih (remove_item c k)
              have hrem := remove_item_facts c k
              simp only [make_room_loop, h, if_true, horder, hkey]
              refine ⟨hrec.1.trans hrem.1, hrec.2.1.trans hrem.2.1,
                hrec.2.2.1.trans hrem.2.2.1, hrec.2.2.2.1.trans hrem.2.2.2,
                hrec.2.2.2.2⟩
            · simp only [Bool.not_eq_true] at hkey
              simp [make_room_loop, h, horder, hkey]
      · simp only [Bool.not_eq_true] at h
        simp [make_room_loop, h]

theorem make_room_loop_no_need (newSize : ℕ) (c : IntelligentCache)
    (h : needsRoom c newSize = false) (fuel : ℕ) :
    make_room_loop newSize fuel c = (true, c) := by
  cases fuel <;> simp [make_room_loop, h]

theorem make_room_no_need (newSize : ℕ) (c : IntelligentCache)
    (h : needsRoom c newSize = false) : make_room c newSize = (true, c) :=
  make_room_loop_no_need newSize c h c.accessOrder.length

/-- The eviction loop of `set` removes the key at the head of the recency
order — the least-recently-used key — whenever room is needed, with no
reference to the item's expiry status. -/
theorem make_room_evicts_lru (c : IntelligentCache) (newSize : ℕ) (k : String)
    (rest : List String) (horder : c.accessOrder = k :: rest)
    (hneed : needsRoom c newSize = true) (hkey : hasKey c.cache k = true) :
    make_room c newSize = make_room_loop newSize rest.length (remove_item c k) := by
  rw [make_room, horder]
  simp only [List.length_cons]
  simp [make_room_loop, hneed, horder, hkey]

theorem cache_set_bounds (c : IntelligentCache) (k : String) (v : PyVal)
    (ttl? : Option ℚ) (now : ℚ) (sizeOf : PyVal → ℕ) (h : CacheBounds c) :
    CacheBounds (cache_set c k v ttl? now sizeOf).snd := by
  obtain ⟨hlen, hbytes⟩ := h
  have hfacts := make_room_loop_facts (sizeOf v) c.accessOrder.length c
  rw [show make_room_loop (sizeOf v) c.accessOrder.length c = make_room c (sizeOf v)
    from rfl] at hfacts
  unfold cache_set
  by_cases hfst : (make_room c (sizeOf v)).fst = true
  · have hnoroom := hfacts.2.2.2.2 hfst
    have hc1 := hfacts
    simp only [hfst, not_true, if_neg, ite_false]
    simp only [needsRoom, Bool.or_eq_false_iff, decide_eq_false_iff_not, not_lt,
      not_le] at hnoroom
    constructor
    · by_cases hk : hasKey (make_room c (sizeOf v)).snd.cache k = true
      · simp only [hk, if_true]
        have h1 := setKey_length_le
          (remove_item (make_room c (sizeOf v)).snd k).cache k
            (⟨k, v, now, if 0 < ttl?.getD c.defaultTtl then some (now + ttl?.getD c.defaultTtl)
              else none, 0, now, sizeOf v⟩ : CacheItem)
        have h2 := (remove_item_facts (make_room c (sizeOf v)).snd k).2.2.1
        have h3 := (remove_item_facts (make_room c (sizeOf v)).snd k).1
        have hmax := hfacts.1
        omega
      · simp only [Bool.not_eq_true] at hk
        simp only [hk, Bool.false_eq_true, if_false]
        have h1 := setKey_length_le (make_room c (sizeOf v)).snd.cache k
          (⟨k, v, now, if 0 < ttl?.getD c.defaultTtl then some (now + ttl?.getD c.defaultTtl)
            else none, 0, now, sizeOf v⟩ : CacheItem)
        have hmax := hfacts.1
        omega
    · by_cases hk : hasKey (make_room c (sizeOf v)).snd.cache k = true
      · simp only [hk, if_true]
        have h2 := (remove_item_facts (make_room c (sizeOf v)).snd k).2.2.2
        have h3 := (remove_item_facts (make_room c (sizeOf v)).snd k).2.1
        have hmaxb := hfacts.2.1
        omega
      · simp only [Bool.not_eq_true] at hk
        simp only [hk, Bool.false_eq_true, if_false]
        have hmaxb := hfacts.2.1
        omega
  · simp only [Bool.not_eq_true] at hfst
    simp only [hfst, Bool.false_eq_true, not_false_eq_true, if_pos, ite_true]
    refine ⟨?_, ?_⟩
    · have := hfacts.2.2.1
      have := hfacts.1
      omega
    · have := hfacts.2.2.2.1
      have := hfacts.2.1
      omega

theorem cache_get_bounds (c : IntelligentCache) (k : String) (now : ℚ)
    (h : CacheBounds c) : CacheBounds (cache_get c k now).snd := by
  obtain ⟨hlen, hbytes⟩ := h
  cases hl : lookupKey c.cache k with
  | none => simpa [cache_get, hl] using ⟨hlen, hbytes⟩
  | some item =>
      by_cases hexp : item.isExpired now = true
      · have hrem := remove_item_facts c k
        simp only [cache_get, hl, hexp, if_true]
        exact ⟨hrem.2.2.1.trans (hrem.1 ▸ hlen), hrem.2.2.2.trans
          (hrem.2.1 ▸ hbytes)⟩
      · simp only [Bool.not_eq_true] at hexp
        have hfound : hasKey c.cache k = true := by simp [hasKey, hl]
        simp only [cache_get, hl, hexp, Bool.false_eq_true, if_false]
        constructor
        · rw [setKey_length_of_found c.cache k _ hfound]
          exact hlen
        · exact hbytes

theorem cache_delete_bounds (c : IntelligentCache) (k : String)
    (h : CacheBounds c) : CacheBounds (cache_delete c k).snd := by
  obtain ⟨hlen, hbytes⟩ := h
  unfold cache_delete
  by_cases hk : hasKey c.cache k = true
  · have hrem := remove_item_facts c k
    simp only [hk, if_true]
    exact ⟨hrem.2.2.1.trans (hrem.1 ▸ hlen), hrem.2.2.2.trans (hrem.2.1 ▸ hbytes)⟩
  · simp only [Bool.not_eq_true] at hk
    simp only [hk, Bool.false_eq_true, if_false]
    exact ⟨hlen, hbytes⟩

theorem cleanup_expired_bounds (c : IntelligentCache) (now : ℚ)
    (h : CacheBounds c) : CacheBounds (cleanup_expired c now) := by
  unfold cleanup_expired
  generalize ((c.cache.filter (fun p => p.snd.isExpired now)).map Prod.fst) = keys
  induction keys generalizing c with
  | nil => exact h
  | cons k ks ih =>
      simp only [List.foldl_cons]
      apply ih
      have hrem := remove_item_facts c k
      exact ⟨hrem.2.2.1.trans (hrem.1 ▸ h.1), hrem.2.2.2.trans (hrem.2.1 ▸ h.2)⟩

theorem cache_reachable_bounds {maxSize : ℕ} {defaultTtl : ℚ} {c : IntelligentCache}
    (h : CacheReachable maxSize defaultTtl c) : CacheBounds c := by
  induction h with
  | init => exact ⟨by simp, by simp⟩
  | getStep c k now _ ih => exact cache_get_bounds c k now ih
  | setStep c k v ttl? now sizeOf _ ih => exact cache_set_bounds c k v ttl? now sizeOf ih
  | deleteStep c k _ ih => exact cache_delete_bounds c k ih
  | cleanupStep c now _ ih => exact cleanup_expired_bounds c now ih

theorem keys_ne_12 : ("k1" : String) ≠ "k2" := by decide

theorem keys_ne_21 : ("k2" : String) ≠ "k1" := by decide

theorem keys_ne_13 : ("k1" : String) ≠ "k3" := by decide

theorem keys_ne_31 : ("k3" : String) ≠ "k1" := by decide

theorem keys_ne_23 : ("k2" : String) ≠ "k3" := by decide

theorem keys_ne_32 : ("k3" : String) ≠ "k2" := by decide

theorem c3State1_eq : c3State1
    = { maxSize := 2, defaultTtl := 300,
        cache := [("k1", ⟨"k1", .pyStr "a", 0, some 1, 0, 0, 1⟩)],
        accessOrder := ["k1"], sizeBytes := 1, maxSizeBytes := 104857600 } := by
  have hmr := make_room_no_need 1 cacheMax2 (by norm_num [needsRoom, cacheMax2])
  simp only [c3State1, cache_set, unitSize, hmr]
  norm_num [cacheMax2, hasKey, lookupKey, setKey]

theorem c3State2_eq : c3State2
    = { maxSize := 2, defaultTtl := 300,
        cache := [("k1", ⟨"k1", .pyStr "a", 0, some 1, 0, 0, 1⟩),
                  ("k2", ⟨"k2", .pyStr "b", 0, some 100, 0, 0, 1⟩)],
        accessOrder := ["k1", "k2"], sizeBytes := 2, maxSizeBytes := 104857600 } := by
  rw [c3State2, c3State1_eq]
  have hmr := make_room_no_need 1
    ({ maxSize := 2, defaultTtl := 300,
       cache := [("k1", ⟨"k1", .pyStr "a", 0, some 1, 0, 0, 1⟩)],
       accessOrder := ["k1"], sizeBytes := 1, maxSizeBytes := 104857600 } : IntelligentCache)
    (by norm_num [needsRoom])
  simp only [cache_set, unitSize, hmr]
  norm_num [hasKey, lookupKey, setKey, keys_ne_12, keys_ne_21]

theorem c3State3_eq : c3State3
    = { maxSize := 2, defaultTtl := 300,
        cache := [("k2", ⟨"k2", .pyStr "b", 0, some 100, 0, 0, 1⟩),
                  ("k3", ⟨"k3", .pyStr "c", 2, some 102, 0, 2, 1⟩)],
        accessOrder := ["k2", "k3"], sizeBytes := 2, maxSizeBytes := 104857600 } := by
  rw [c3State3, c3State2_eq]
  have hev := make_room_evicts_lru
    ({ maxSize := 2, defaultTtl := 300,
       cache := [("k1", ⟨"k1", .pyStr "a", 0, some 1, 0, 0, 1⟩),
                 ("k2", ⟨"k2", .pyStr "b", 0, some 100, 0, 0, 1⟩)],
       accessOrder := ["k1", "k2"], sizeBytes := 2, maxSizeBytes := 104857600 } : IntelligentCache)
    1 "k1" ["k2"] rfl (by norm_num [needsRoom]) (by simp [hasKey, lookupKey])
  have hrm : remove_item
      ({ maxSize := 2, defaultTtl := 300,
         cache := [("k1", ⟨"k1", .pyStr "a", 0, some 1, 0, 0, 1⟩),
                   ("k2", ⟨"k2", .pyStr "b", 0, some 100, 0, 0, 1⟩)],
         accessOrder := ["k1", "k2"], sizeBytes := 2, maxSizeBytes := 104857600 } :
        IntelligentCache) "k1"
      = { maxSize := 2, defaultTtl := 300,
          cache := [("k2", ⟨"k2", .pyStr "b", 0, some 100, 0, 0, 1⟩)],
          accessOrder := ["k2"], sizeBytes := 1, maxSizeBytes := 104857600 } := by
    norm_num [remove_item, lookupKey, eraseKey, List.erase]
  rw [hrm] at hev
  rw [make_room_loop_no_need 1 _ (by norm_num [needsRoom]) _] at hev
  simp only [cache_set, unitSize, hev]
  norm_num [hasKey, lookupKey, setKey, keys_ne_23, keys_ne_32]

/-- C3 counterexample.  At the moment the third `set` must make room,
`k1` is expired and `k2` is not; the claim requires the evicted item to
be the least-recently-used *unexpired* item (`k2`), with an expired item
chosen only when everything is expired — but the code evicts `k1`, the
plain LRU head, leaving `k2` cached and retrievable. -/
theorem C3_eviction_counterexample :
    (lookupKey c3State2.cache "k1").map (fun it => it.isExpired 2) = some true ∧
    (lookupKey c3State2.cache "k2").map (fun it => it.isExpired 2) = some false ∧
    hasKey c3State3.cache "k1" = false ∧
    hasKey c3State3.cache "k2" = true ∧
    (cache_get c3State3 "k2" 2).fst = .pyStr "b" := by
  rw [c3State2_eq, c3State3_eq]
  refine ⟨?_, ?_, ?_, ?_, ?_⟩
  · norm_num [lookupKey, CacheItem.isExpired, keys_ne_12, keys_ne_21]
  · norm_num [lookupKey, CacheItem.isExpired, keys_ne_12, keys_ne_21]
  · norm_num [hasKey, lookupKey, keys_ne_21, keys_ne_31]
  · norm_num [hasKey, lookupKey]
  · norm_num [cache_get, lookupKey, CacheItem.isExpired]

/-- C3 (amended): in every reachable cache state the cache never holds
more than its configured item count nor exceeds its byte budget; and when
a `set` must make room, the eviction loop removes the key at the
least-recently-used end of the recency order, with no regard to expiry
(an expired LRU head is evicted even while unexpired items remain). -/
theorem C3_cache_bounds_and_lru_eviction (maxSize : ℕ) (defaultTtl : ℚ)
    (c : IntelligentCache) (hreach : CacheReachable maxSize defaultTtl c)
    (newSize : ℕ) (k : String) (rest : List String)
    (horder : c.accessOrder = k :: rest) (hneed : needsRoom c newSize = true)
    (hkey : hasKey c.cache k = true) :
    (c.cache.length ≤ c.maxSize ∧ c.sizeBytes ≤ (c.maxSizeBytes : Int)) ∧
    make_room c newSize = make_room_loop newSize rest.length (remove_item c k) :=
  ⟨cache_reachable_bounds hreach, make_room_evicts_lru c newSize k rest horder hneed hkey⟩

/-- Witness for C3 (amended) at the concrete two-item state reached by
the scenario's first two sets: the bounds hold and the eviction of the
third set starts at the LRU head `k1`. -/
theorem C3_cache_bounds_and_lru_eviction_witness :
    (c3State2.cache.length ≤ c3State2.maxSize ∧
      c3State2.sizeBytes ≤ (c3State2.maxSizeBytes : Int)) ∧
    make_room c3State2 1
      = make_room_loop 1 (["k2"] : List String).length (remove_item c3State2 "k1") := by
  have hreach : CacheReachable 2 300 c3State2 :=
    CacheReachable.setStep _ "k2" (.pyStr "b") (some 100) 0 unitSize
      (CacheReachable.setStep _ "k1" (.pyStr "a") (some 1) 0 unitSize CacheReachable.init)
  exact C3_cache_bounds_and_lru_eviction 2 300 c3State2 hreach 1 "k1" ["k2"]
    (by rw [c3State2_eq]) (by rw [c3State2_eq]; norm_num [needsRoom])
    (by rw [c3State2_eq]; simp [hasKey, lookupKey])

theorem cache_set_lookup_self (c : IntelligentCache) (k : String) (v : PyVal) (ttl : ℚ)
    (now : ℚ) (sizeOf : PyVal → ℕ) (httl : 0 < ttl)
    (hset : (cache_set c k v (some ttl) now sizeOf).fst = true) :
    lookupKey (cache_set c k v (some ttl) now sizeOf).snd.cache k
      = some ⟨k, v, now, some (now + ttl), 0, now, sizeOf v⟩ := by
  by_cases hroom : (make_room c (sizeOf v)).fst = true
  · simp only [cache_set, hroom, not_true, Option.getD_some, if_pos httl, ite_false]
    split
    · exact lookupKey_setKey_self _ _ _
    · exact lookupKey_setKey_self _ _ _
  · have hfalse : (make_room c (sizeOf v)).fst = false := by
      simpa using hroom
    simp [cache_set, hfalse] at hset

theorem cache_get_of_found (c : IntelligentCache) (k : String) (now : ℚ)
    (item : CacheItem) (h : lookupKey c.cache k = some item) :
    (cache_get c k now).fst = if item.isExpired now then .pyNone else item.value := by
  simp only [cache_get, h]
  by_cases he : item.isExpired now = true
  · simp [he]
  · simp only [Bool.not_eq_true] at he
    simp [he]

theorem c8State1_eq (v1 : PyVal) : c8State1 v1
    = { maxSize := 2, defaultTtl := 300,
        cache := [("k1", ⟨"k1", v1, 0, some 300, 0, 0, 1⟩)],
        accessOrder := ["k1"], sizeBytes := 1, maxSizeBytes := 104857600 } := by
  have hmr := make_room_no_need 1 cacheMax2 (by norm_num [needsRoom, cacheMax2])
  simp only [c8State1, cache_set, unitSize, hmr]
  norm_num [cacheMax2, hasKey, lookupKey, setKey]

theorem c8State2_eq (v1 v2 : PyVal) : c8State2 v1 v2
    = { maxSize := 2, defaultTtl := 300,
        cache := [("k1", ⟨"k1", v1, 0, some 300, 0, 0, 1⟩),
                  ("k2", ⟨"k2", v2, 0, some 300, 0, 0, 1⟩)],
        accessOrder := ["k1", "k2"], sizeBytes := 2, maxSizeBytes := 104857600 } := by
  rw [c8State2, c8State1_eq]
  have hmr := make_room_no_need 1
    ({ maxSize := 2, defaultTtl := 300,
       cache := [("k1", ⟨"k1", v1, 0, some 300, 0, 0, 1⟩)],
       accessOrder := ["k1"], sizeBytes := 1, maxSizeBytes := 104857600 } : IntelligentCache)
    (by norm_num [needsRoom])
  simp only [cache_set, unitSize, hmr]
  norm_num [hasKey, lookupKey, setKey, keys_ne_12, keys_ne_21]

theorem c8State2t_eq (v1 v2 : PyVal) : c8State2t v1 v2
    = { maxSize := 2, defaultTtl := 300,
        cache := [("k1", ⟨"k1", v1, 0, some 300, 1, 0, 1⟩),
                  ("k2", ⟨"k2", v2, 0, some 300, 0, 0, 1⟩)],
        accessOrder := ["k2", "k1"], sizeBytes := 2, maxSizeBytes := 104857600 } := by
  rw [c8State2t, c8State2_eq]
  norm_num [cache_get, lookupKey, CacheItem.isExpired, setKey, moveToEnd, List.erase,
    keys_ne_12, keys_ne_21]

theorem c8State3_eq (v1 v2 v3 : PyVal) : c8State3 v1 v2 v3
    = { maxSize := 2, defaultTtl := 300,
        cache := [("k1", ⟨"k1", v1, 0, some 300, 1, 0, 1⟩),
                  ("k3", ⟨"k3", v3, 0, some 300, 0, 0, 1⟩)],
        accessOrder := ["k1", "k3"], sizeBytes := 2, maxSizeBytes := 104857600 } := by
  rw [c8State3, c8State2t_eq]
  have hev := make_room_evicts_lru
    ({ maxSize := 2, defaultTtl := 300,
       cache := [("k1", ⟨"k1", v1, 0, some 300, 1, 0, 1⟩),
                 ("k2", ⟨"k2", v2, 0, some 300, 0, 0, 1⟩)],
       accessOrder := ["k2", "k1"], sizeBytes := 2, maxSizeBytes := 104857600 } :
      IntelligentCache)
    1 "k2" ["k1"] rfl (by norm_num [needsRoom])
    (by simp [hasKey, lookupKey, keys_ne_12])
  have hrm : remove_item
      ({ maxSize := 2, defaultTtl := 300,
         cache := [("k1", ⟨"k1", v1, 0, some 300, 1, 0, 1⟩),
                   ("k2", ⟨"k2", v2, 0, some 300, 0, 0, 1⟩)],
         accessOrder := ["k2", "k1"], sizeBytes := 2, maxSizeBytes := 104857600 } :
        IntelligentCache) "k2"
      = { maxSize := 2, defaultTtl := 300,
          cache := [("k1", ⟨"k1", v1, 0, some 300, 1, 0, 1⟩)],
          accessOrder := ["k1"], sizeBytes := 1, maxSizeBytes := 104857600 } := by
    norm_num [remove_item, lookupKey, eraseKey, List.erase, keys_ne_12, keys_ne_21]
  rw [hrm] at hev
  rw [make_room_loop_no_need 1 _ (by norm_num [needsRoom]) _] at hev
  simp only [cache_set, unitSize, hev]
  norm_num [hasKey, lookupKey, setKey, keys_ne_13, keys_ne_31]

/-- C8: after `set(k, v, ttl=1s)`, a `get(k)` at or before the expiry
instant returns `v`, and a `get(k)` after the TTL has elapsed (e.g. at
1.1s) returns the miss value; and with `max_items = 2`, after `k1` and
`k2` are cached and `k1` is accessed, setting `k3` evicts exactly the
least-recently-accessed key `k2`, leaving the more recently accessed `k1`
(and the new `k3`) retrievable. -/
theorem C8_cache_ttl_and_lru :
    (∀ (c : IntelligentCache) (k : String) (v : PyVal) (now t2 : ℚ) (sizeOf : PyVal → ℕ),
      (cache_set c k v (some 1) now sizeOf).fst = true →
      ((t2 ≤ now + 1 →
        (cache_get (cache_set c k v (some 1) now sizeOf).snd k t2).fst = v) ∧
       (now + 1 < t2 →
        (cache_get (cache_set c k v (some 1) now sizeOf).snd k t2).fst = .pyNone))) ∧
    (∀ v1 v2 v3 : PyVal,
      (cache_get (c8State2 v1 v2) "k1" 0).fst = v1 ∧
      hasKey (c8State3 v1 v2 v3).cache "k2" = false ∧
      (cache_get (c8State3 v1 v2 v3) "k1" 1).fst = v1 ∧
      (cache_get (c8State3 v1 v2 v3) "k3" 1).fst = v3) := by
  constructor
  · intro c k v now t2 sizeOf hset
    have hl := cache_set_lookup_self c k v 1 now sizeOf (by norm_num) hset
    rw [cache_get_of_found _ _ _ _ hl]
    constructor
    · intro hle
      have hne : (⟨k, v, now, some (now + 1), 0, now, sizeOf v⟩ : CacheItem).isExpired t2
          = false := by
        simp only [CacheItem.isExpired, decide_eq_false_iff_not, not_lt]
        exact hle
      simp [hne]
    · intro hlt
      have hex : (⟨k, v, now, some (now + 1), 0, now, sizeOf v⟩ : CacheItem).isExpired t2
          = true := by
        simp only [CacheItem.isExpired, decide_eq_true_eq]
        exact hlt
      simp [hex]
  · intro v1 v2 v3
    refine ⟨?_, ?_, ?_, ?_⟩
    · rw [c8State2_eq]
      norm_num [cache_get, lookupKey, CacheItem.isExpired]
    · rw [c8State3_eq]
      norm_num [hasKey, lookupKey, keys_ne_12, keys_ne_32]
    · rw [c8State3_eq]
      norm_num [cache_get, lookupKey, CacheItem.isExpired]
    · rw [c8State3_eq]
      norm_num [cache_get, lookupKey, CacheItem.isExpired, keys_ne_31, keys_ne_13]

/-- Witness for C8 at concrete inputs: `set("k", "x", ttl=1)` at time 0
on a fresh two-item cache succeeds; `get` at time 1 returns `"x"` and at
time 1.1 returns the miss value; the eviction scenario is instantiated at
the string values a/b/c. -/
theorem C8_cache_ttl_and_lru_witness :
    ((cache_get (cache_set cacheMax2 "k" (.pyStr "x") (some 1) 0 unitSize).snd "k" 1).fst
      = .pyStr "x") ∧
    ((cache_get (cache_set cacheMax2 "k" (.pyStr "x") (some 1) 0 unitSize).snd "k"
      (11 / 10)).fst = .pyNone) ∧
    hasKey (c8State3 (.pyStr "a") (.pyStr "b") (.pyStr "c")).cache "k2" = false ∧
    (cache_get (c8State3 (.pyStr "a") (.pyStr "b") (.pyStr "c")) "k1" 1).fst
      = .pyStr "a" := by
  have hset : (cache_set cacheMax2 "k" (.pyStr "x") (some 1) 0 unitSize).fst = true := by
    have hmr := make_room_no_need 1 cacheMax2 (by norm_num [needsRoom, cacheMax2])
    simp [cache_set, unitSize, hmr]
  have h1 := (C8_cache_ttl_and_lru.1 cacheMax2 "k" (.pyStr "x") 0 1 unitSize hset).1
    (by norm_num)
  have h2 := (C8_cache_ttl_and_lru.1 cacheMax2 "k" (.pyStr "x") 0 (11 / 10) unitSize hset).2
    (by norm_num)
  have h3 := C8_cache_ttl_and_lru.2 (.pyStr "a") (.pyStr "b") (.pyStr "c")
  exact ⟨by simpa using h1, by simpa using h2, h3.2.1, h3.2.2.1⟩

theorem cache_set_lookup_value (c : IntelligentCache) (k : String) (v : PyVal)
    (ttl? : Option ℚ) (now : ℚ) (sizeOf : PyVal → ℕ)
    (hset : (cache_set c k v ttl? now sizeOf).fst = true) :
    ∃ item, lookupKey (cache_set c k v ttl? now sizeOf).snd.cache k = some item
      ∧ item.value = v := by
  by_cases hroom : (make_room c (sizeOf v)).fst = true
  · simp only [cache_set, hroom, not_true, ite_false]
    exact ⟨_, lookupKey_setKey_self _ _ _, rfl⟩
  · have hfalse : (make_room c (sizeOf v)).fst = false := by
      simpa using hroom
    simp [cache_set, hfalse] at hset

/-- C10: at the cache interface a stored `None` is indeed indistinguishable
from an absent key — after any successful `set(k, None, ttl)`, `get(k)` at
any time returns the same `None` miss result that a never-set key yields —
but the claimed consequence about `cached_operation` fails: with the
metrics dict in its initial (empty) state, every call to
`cached_operation`, whatever its operation would return, raises the
`TypeError` produced by the `defaultdict(PerformanceMetrics)` factory
inside the cache-hit/cache-miss recorder, before the operation body runs;
the operation is never executed, let alone re-executed and re-cached. -/
theorem C10_none_caching_code_bug :
    (∀ (c : IntelligentCache) (k : String) (ttl now t2 : ℚ) (sizeOf : PyVal → ℕ),
      (cache_set c k .pyNone (some ttl) now sizeOf).fst = true →
      (cache_get (cache_set c k .pyNone (some ttl) now sizeOf).snd k t2).fst
        = .pyNone) ∧
    (∀ (k : String) (now : ℚ),
      (cache_get ({} : IntelligentCache) k now).fst = .pyNone) ∧
    (∀ (pm : PerformanceManager) (key opName keyPre : String)
        (op : Except String PyVal) (ttl? : Option ℚ) (now durationMs : ℚ)
        (sizeOf : PyVal → ℕ),
      pm.metrics = [] →
      (cached_operation pm key opName keyPre op ttl? now durationMs sizeOf).1
          = .error typeErrorMetrics ∧
      (cached_operation pm key opName keyPre op ttl? now durationMs sizeOf).2.2
          = false) := by
  refine ⟨?_, ?_, ?_⟩
  · intro c k ttl now t2 sizeOf hset
    obtain ⟨item, hl, hv⟩ :=
      cache_set_lookup_value c k .pyNone (some ttl) now sizeOf hset
    rw [cache_get_of_found _ _ _ _ hl, hv]
    exact ite_self _
  · intro k now
    rfl
  · intro pm key opName keyPre op ttl? now durationMs sizeOf hm
    by_cases hc : (cache_get pm.cache (keyPre ++ ":" ++ key) now).fst = .pyNone
    · constructor <;>
        simp [cached_operation, hc, record_cache_miss, metricsEntry, hm, lookupKey]
    · constructor <;>
        simp [cached_operation, hc, record_cache_hit, metricsEntry, hm, lookupKey]

/-- Witness for C10 at concrete inputs: on a fresh two-item cache,
`set("k", None, ttl=5)` at time 0 succeeds yet `get("k")` at time 0 misses;
and a `cached_operation` call on a fresh `PerformanceManager` whose
operation would return the string "r" raises the metrics `TypeError`
without executing the operation. -/
theorem C10_none_caching_code_bug_witness :
    (cache_get (cache_set cacheMax2 "k" .pyNone (some 5) 0 unitSize).snd "k" 0).fst
      = .pyNone ∧
    (cached_operation performanceManagerInit "job" "fetch_jobs" "op"
        (.ok (.pyStr "r")) none 0 1 unitSize).1 = .error typeErrorMetrics ∧
    (cached_operation performanceManagerInit "job" "fetch_jobs" "op"
        (.ok (.pyStr "r")) none 0 1 unitSize).2.2 = false := by
  have hset : (cache_set cacheMax2 "k" .pyNone (some 5) 0 unitSize).fst = true := by
    have hmr := make_room_no_need 1 cacheMax2 (by norm_num [needsRoom, cacheMax2])
    simp [cache_set, unitSize, hmr]
  have h1 := C10_none_caching_code_bug.1 cacheMax2 "k" 5 0 0 unitSize hset
  have h3 := C10_none_caching_code_bug.2.2 performanceManagerInit "job" "fetch_jobs"
    "op" (.ok (.pyStr "r")) none 0 1 unitSize rfl
  exact ⟨h1, h3.1, h3.2⟩
